import Mathlib

/-!
Verification of the schedule-generation core of New-OvertureQRScout.

The definitions below are a shallow embedding of `src/utils/scheduleGenerator.ts`
(the turn-scoped generator, the canonical variant per the design notes) together
with the record types from `src/types.ts`.  JavaScript numbers are modelled as
`Int` (all values involved are integers), JS `Map` objects as update functions,
and the stable `Array.prototype.sort` as a stable insertion sort (`jsSort`).
-/

/-- Severity of a validation record (the TS union `'error' | 'warning'`). -/
inductive Severity where
  | error : Severity
  | warning : Severity
deriving DecidableEq, Repr

/-- Embedding of the TS interface `EventConfig`. -/
structure EventConfig where
  localLabel : String
  tbaLabel : String
  amountOfTeams : Int
  matchesPerTeam : Int
  totalMatches : Int
  teamsPerMatch : Int
  allianceBlue : String
  allianceRed : String
deriving DecidableEq, Repr

/-- Embedding of the TS interface `Personnel`. -/
structure Personnel where
  leadScouters : List String
  scouters : List String
  cameras : List String
deriving DecidableEq, Repr

/-- Embedding of the TS interface `Turn`. -/
structure Turn where
  turn : Int
  startMatch : Int
  endMatch : Int
deriving DecidableEq, Repr

/-- Embedding of the TS interface `ShiftConfig`. -/
structure ShiftConfig where
  breakPoints : List Int
  turns : List Turn
deriving DecidableEq, Repr

/-- Embedding of the TS interface `MatchAssignment`. -/
structure MatchAssignment where
  position : String
  scouter : String
  teamNumber : Option Int
deriving DecidableEq, Repr

/-- Embedding of the TS interface `MatchSchedule`. -/
structure MatchSchedule where
  matchNumber : Int
  leadScouter : String
  camera : String
  assignments : List MatchAssignment
deriving DecidableEq, Repr

/-- Embedding of the TS interface `GeneratedSchedule`. -/
structure GeneratedSchedule where
  event : EventConfig
  personnel : Personnel
  shifts : ShiftConfig
  schedule : List MatchSchedule
deriving DecidableEq, Repr

/-- Embedding of the TS interface `ScheduleConstraints`. -/
structure ScheduleConstraints where
  maxMatchesPerScouter : Option Int
deriving DecidableEq, Repr

/-- Embedding of the TS interface `ScheduleValidationError`. -/
structure ScheduleValidationError where
  type : Severity
  message : String
  details : Option String
deriving DecidableEq, Repr

/-- Embedding of the TS interface `ScheduleGenerationResult`. -/
structure ScheduleGenerationResult where
  success : Bool
  schedule : Option GeneratedSchedule
  errors : List ScheduleValidationError
  warnings : List ScheduleValidationError
deriving DecidableEq, Repr

/-- Embedding of the TS interface `ScouterTurnAssignment`'s inner record. -/
structure ScouterMatchAssignment where
  matchNumber : Int
  position : String
  teamNumber : Option Int
  leadScouter : String
deriving DecidableEq, Repr

/-- Embedding of the TS interface `ScouterTurnAssignment`. -/
structure ScouterTurnAssignment where
  turn : Int
  startMatch : Int
  endMatch : Int
  assignments : List ScouterMatchAssignment
deriving DecidableEq, Repr

/-- Result record of `isLastMatchOfTurn`. -/
structure LastMatchResult where
  isLast : Bool
  turnNumber : Option Int
deriving DecidableEq, Repr

/-- Model of JS `String.prototype.trim`: drop whitespace from both ends
(whitespace per `Char.isWhitespace`; the inputs of interest are ASCII). -/
def jsTrim (s : String) : String :=
  ⟨((s.data.dropWhile Char.isWhitespace).reverse.dropWhile Char.isWhitespace).reverse⟩

/-- Model of JS `String.prototype.toLowerCase` on the rosters' names. -/
def jsToLower (s : String) : String :=
  ⟨s.data.map Char.toLower⟩

/-- Insert `x` after every element `y` with `le y x`.  Together with `jsSort`
this models the stable ascending sort performed by JS `Array.prototype.sort`
with a numeric comparator: elements comparing equal keep their original
relative order. -/
def jsSortInsert (le : α → α → Bool) (x : α) : List α → List α
  | [] => [x]
  | y :: ys => if le y x then y :: jsSortInsert le x ys else x :: y :: ys

/-- Stable insertion sort modelling JS `Array.prototype.sort(cmp)` for a
comparator that is a total preorder (such as `(a, b) => a - b` on numbers). -/
def jsSort (le : α → α → Bool) (l : List α) : List α :=
  l.foldl (fun acc x => jsSortInsert le x acc) []

/-- Helper for `intRange`: the `n` consecutive integers starting at `a`. -/
def intRangeAux (a : Int) : Nat → List Int
  | 0 => []
  | n + 1 => a :: intRangeAux (a + 1) n

/-- Inclusive integer range `[a, b]`, the set scanned by a JS loop
`for (let i = a; i <= b; i++)`.  Empty when `b < a`. -/
def intRange (a b : Int) : List Int :=
  intRangeAux a (b + 1 - a).toNat

/-- Embedding of `getPositions`: blue-alliance labels `"<blue> 1..N"` followed
by red-alliance labels, with `N = Math.floor(teamsPerMatch / 2)`. -/
def getPositions (e : EventConfig) : List String :=
  let teamsPerAlliance := (Int.fdiv e.teamsPerMatch 2).toNat
  (List.range teamsPerAlliance).map (fun i => e.allianceBlue ++ " " ++ toString (i + 1))
    ++ (List.range teamsPerAlliance).map (fun i => e.allianceRed ++ " " ++ toString (i + 1))

/-- Helper for `calculateTurns`: the `forEach` loop over the sorted break
points, carrying the mutable `startMatch` and the next turn index, followed by
the final turn ending at `totalMatches`. -/
def buildTurns (idx : Nat) (startMatch totalMatches : Int) : List Int → List Turn
  | [] => [⟨(idx : Int), startMatch, totalMatches⟩]
  | b :: bs => ⟨(idx : Int), startMatch, b⟩ :: buildTurns (idx + 1) (b + 1) totalMatches bs

/-- Embedding of `calculateTurns`: sort the break points ascending, keep those
strictly between `0` and `totalMatches`, and fold them into turns. -/
def calculateTurns (totalMatches : Int) (breakPoints : List Int) : List Turn :=
  let sortedBreaks :=
    (jsSort (fun a b => decide (a ≤ b)) breakPoints).filter
      (fun bp => decide (0 < bp) && decide (bp < totalMatches))
  buildTurns 1 1 totalMatches sortedBreaks

/-- The capacity-infeasibility error pushed by `validateScheduleConfig` when a
max-matches cap cannot cover all assignments; its details cite the requirement
and capacity figures exactly as the source's template string does. -/
def capacityError (totalMatches : Int) (positionsPerMatch : Nat) (nScouters : Nat)
    (cap : Int) : ScheduleValidationError :=
  let totalAssignmentsNeeded := totalMatches * (positionsPerMatch : Int)
  let maxPossibleAssignments := (nScouters : Int) * cap
  { type := .error
    message := "Max matches constraint cannot be satisfied"
    details := some ("Need " ++ toString totalAssignmentsNeeded ++ " total assignments ("
      ++ toString totalMatches ++ " matches × " ++ toString positionsPerMatch
      ++ " positions), but with " ++ toString nScouters ++ " scouters limited to "
      ++ toString cap ++ " matches each, can only cover "
      ++ toString maxPossibleAssignments
      ++ " assignments. Either add more scouters or increase the max matches limit.") }

/-- Whether match `i` lies in the inclusive range of turn `t` (the containment
recorded by the coverage `Set` in the validator). -/
def turnCovers (t : Turn) (i : Int) : Bool :=
  decide (t.startMatch ≤ i) && decide (i ≤ t.endMatch)

/-- Validator check 1: minimum number of scouters. -/
def notEnoughCheck (positionsPerMatch nScouters : Nat) : List ScheduleValidationError :=
  if nScouters < positionsPerMatch then
    [{ type := .error, message := "Not enough scouters",
       details := some ("Need at least " ++ toString positionsPerMatch
         ++ " scouters to cover all positions, but only have "
         ++ toString nScouters ++ ".") }]
  else []

/-- Validator check 2: no blank scouter names. -/
def emptyNamesCheck (scouters : List String) : List ScheduleValidationError :=
  if scouters.any (fun s => jsTrim s = "") then
    [{ type := .error, message := "Empty scouter names",
       details := some "All scouters must have a name." }]
  else []

/-- Validator check 3: at least one lead scouter. -/
def noLeadsCheck (leadScouters : List String) : List ScheduleValidationError :=
  if leadScouters.length = 0 then
    [{ type := .error, message := "No lead scouters",
       details := some "At least one lead scouter is required." }]
  else []

/-- Validator check 4: at least one camera operator. -/
def noCamerasCheck (cameras : List String) : List ScheduleValidationError :=
  if cameras.length = 0 then
    [{ type := .error, message := "No camera operators",
       details := some "At least one camera operator is required." }]
  else []

/-- Validator check 5: feasibility of the optional max-matches cap. -/
def capCheck (totalMatches : Int) (positionsPerMatch nScouters : Nat)
    (c : ScheduleConstraints) : List ScheduleValidationError :=
  match c.maxMatchesPerScouter with
  | none => []
  | some cap =>
    if (nScouters : Int) * cap < totalMatches * (positionsPerMatch : Int) then
      [capacityError totalMatches positionsPerMatch nScouters cap]
    else []

/-- Validator check 6: the turn ranges cover every match in
`[1, totalMatches]`; only the first uncovered match is reported. -/
def turnCoverageCheck (totalMatches : Int) (turns : List Turn) :
    List ScheduleValidationError :=
  if turns.length = 0 then
    [{ type := .error, message := "No turns defined",
       details := some "Schedule must have at least one turn." }]
  else
    match (intRange 1 totalMatches).find?
        (fun i => ! turns.any (fun t => turnCovers t i)) with
    | some i =>
      [{ type := .error, message := "Gaps in turn coverage",
         details := some ("Match " ++ toString i ++ " is not covered by any turn.") }]
    | none => []

/-- Embedding of `validateScheduleConfig`: the six independent checks, in
source order, each contributing its error records to the returned list. -/
def validateScheduleConfig (e : EventConfig) (p : Personnel) (sh : ShiftConfig)
    (c : ScheduleConstraints) : List ScheduleValidationError :=
  let positionsPerMatch := (getPositions e).length
  let nScouters := p.scouters.length
  notEnoughCheck positionsPerMatch nScouters
    ++ emptyNamesCheck p.scouters
    ++ noLeadsCheck p.leadScouters
    ++ noCamerasCheck p.cameras
    ++ capCheck e.totalMatches positionsPerMatch nScouters c
    ++ turnCoverageCheck e.totalMatches sh.turns

/-- Round-robin roster access `roster[i % roster.length] || ''` (the empty
string results when the roster is empty, as indexing then yields `undefined`). -/
def rosterAt (l : List String) (i : Nat) : String :=
  match l with
  | [] => ""
  | _ => l.getD (i % l.length) ""

/-- The per-turn position-assignment loop of `generateSchedule`: for each
position, pick the first scouter of the sorted roster not already used in this
turn; update the turn/match counters on success, or record an empty slot and a
warning on failure.  Returns the assignment list, the updated counters and the
warnings in emission order. -/
def assignLoop (sorted : List String) (turnNum : Int) (matchesInTurn : Int) :
    List String → List String → (String → Nat) → (String → Int) →
      List String × (String → Nat) × (String → Int) × List ScheduleValidationError
  | [], acc, tc, mc => (acc, tc, mc, [])
  | pos :: rest, acc, tc, mc =>
    match sorted.find? (fun s => ! acc.contains s) with
    | some s =>
      let tc' := fun x => if x = s then tc x + 1 else tc x
      let mc' := fun x => if x = s then mc x + matchesInTurn else mc x
      assignLoop sorted turnNum matchesInTurn rest (acc ++ [s]) tc' mc'
    | none =>
      let r := assignLoop sorted turnNum matchesInTurn rest (acc ++ [""]) tc mc
      (r.1, r.2.1, r.2.2.1,
        { type := .warning
          message := "No available scouter for Turn " ++ toString turnNum ++ ", " ++ pos
          details := some "Not enough scouters to cover all positions." } :: r.2.2.2)

/-- The main turn loop of `generateSchedule`: per turn, take the round-robin
lead scouter and camera, sort the roster by the running turn counters (stable),
run the position-assignment loop once, and materialize one `MatchSchedule` per
match number of the turn with the shared assignments. -/
def runTurns (scouters leads cams positions : List String) :
    List Turn → (String → Nat) → (String → Int) → Nat → Nat →
      List MatchSchedule × List ScheduleValidationError × (String → Int)
  | [], _, mc, _, _ => ([], [], mc)
  | t :: ts, tc, mc, li, ci =>
    let turnLead := rosterAt leads li
    let turnCam := rosterAt cams ci
    let matchesInTurn := t.endMatch - t.startMatch + 1
    let sorted := jsSort (fun a b => decide (tc a ≤ tc b)) scouters
    let r := assignLoop sorted t.turn matchesInTurn positions [] tc mc
    let ms := (intRange t.startMatch t.endMatch).map (fun mn =>
      { matchNumber := mn, leadScouter := turnLead, camera := turnCam,
        assignments := positions.zipWith (fun p s => ⟨p, s, none⟩) r.1 })
    let rest := runTurns scouters leads cams positions ts r.2.1 r.2.2.1 (li + 1) (ci + 1)
    (ms ++ rest.1, r.2.2.2 ++ rest.2.1, rest.2.2)

/-- Roster names in first-occurrence order, modelling the key set (in insertion
order) of the JS `Map` initialized with one entry per roster name. -/
def dedupFirst : List String → List String
  | [] => []
  | x :: xs => x :: (dedupFirst xs).filter (fun y => y ≠ x)

/-- Ceiling of `a / b` for positive `b`, modelling `Math.ceil` of a JS float
division of integers. -/
def ceilDiv (a : Int) (b : Nat) : Int :=
  -(Int.fdiv (-a) (b : Int))

/-- The generation pass of `generateSchedule` (its state initialized as in the
source: all counters zero, both round-robin indices zero). -/
def genResult (e : EventConfig) (p : Personnel) (sh : ShiftConfig) :
    List MatchSchedule × List ScheduleValidationError × (String → Int) :=
  runTurns p.scouters p.leadScouters p.cameras (getPositions e) sh.turns
    (fun _ => 0) (fun _ => 0) 0 0

/-- The labels of the unassigned position slots in the generated schedule (the
`unassignedPositions` array of the source's post-generation validation). -/
def unassignedLabels (ms : List MatchSchedule) : List String :=
  ms.flatMap (fun m =>
    (m.assignments.filter (fun a => a.scouter = "")).map (fun a =>
      "Match " ++ toString m.matchNumber ++ " - " ++ a.position))

/-- The aggregate warning over unassigned slots (up to 5 examples plus a
truncation marker), empty when every slot is assigned. -/
def unassignedWarning (unassigned : List String) : List ScheduleValidationError :=
  if 0 < unassigned.length then
    [{ type := .warning
       message := toString unassigned.length ++ " positions left unassigned"
       details := some (String.intercalate ", " (unassigned.take 5)
         ++ (if 5 < unassigned.length then "..." else "")) }]
  else []

/-- The workload-balance audit over the per-scouter match counts (in roster
insertion order); `Math.min`/`Math.max` over an empty array never triggers the
warning, mirrored here by the empty-list case. -/
def balanceCheck (totalMatches : Int) (nScouters : Nat) :
    List Int → List ScheduleValidationError
  | [] => []
  | c0 :: cs =>
    let minCount := cs.foldl min c0
    let maxCount := cs.foldl max c0
    if ceilDiv totalMatches nScouters * 2 < maxCount - minCount then
      [{ type := .warning
         message := "Uneven workload distribution"
         details := some ("Match counts range from " ++ toString minCount ++ " to "
           ++ toString maxCount
           ++ ". Consider adding more scouters or adjusting shifts.") }]
    else []

/-- The successful branch of `generateSchedule`: run the turn loop, append the
unassigned-positions aggregate warning and the workload-balance warning, and
package the result. -/
def generateScheduleSuccess (e : EventConfig) (p : Personnel) (sh : ShiftConfig)
    (warnings0 : List ScheduleValidationError) : ScheduleGenerationResult :=
    let gen := genResult e p sh
    let ms := gen.1
    { success := true
      schedule := some { event := e, personnel := p, shifts := sh, schedule := ms }
      errors := []
      warnings := warnings0 ++ gen.2.1 ++ unassignedWarning (unassignedLabels ms)
        ++ balanceCheck e.totalMatches p.scouters.length
          ((dedupFirst p.scouters).map gen.2.2) }

/-- Embedding of `generateSchedule`: validate, short-circuit on errors, and
otherwise run the generation pass. -/
def generateSchedule (e : EventConfig) (p : Personnel) (sh : ShiftConfig)
    (c : ScheduleConstraints) : ScheduleGenerationResult :=
  let validationErrors := validateScheduleConfig e p sh c
  let errors := validationErrors.filter (fun x => decide (x.type = .error))
  let warnings0 := validationErrors.filter (fun x => decide (x.type = .warning))
  if 0 < errors.length then
    { success := false, schedule := none, errors := errors, warnings := warnings0 }
  else generateScheduleSuccess e p sh warnings0

/-- The entries collected for one turn by `getScouterAssignments`: every match
of the schedule whose number lies in the turn's range and which assigns the
queried scouter (case-insensitively). -/
def scouterAssignsInTurn (gs : GeneratedSchedule) (name : String) (t : Turn) :
    List ScouterMatchAssignment :=
  (gs.schedule.filter (fun m => turnCovers t m.matchNumber)).filterMap (fun m =>
    (m.assignments.find? (fun a => jsToLower a.scouter = jsToLower name)).map (fun a =>
      { matchNumber := m.matchNumber, position := a.position,
        teamNumber := a.teamNumber, leadScouter := m.leadScouter }))

/-- Embedding of `getScouterAssignments`: one `ScouterTurnAssignment` per turn
with at least one entry for the queried scouter, in turn order. -/
def getScouterAssignments (gs : GeneratedSchedule) (name : String) :
    List ScouterTurnAssignment :=
  gs.shifts.turns.filterMap (fun t =>
    let assigns := scouterAssignsInTurn gs name t
    if assigns.isEmpty then none
    else some { turn := t.turn, startMatch := t.startMatch,
                endMatch := t.endMatch, assignments := assigns })

/-- Embedding of `getAllScouterNames`. -/
def getAllScouterNames (gs : GeneratedSchedule) : List String :=
  gs.personnel.scouters

/-- Per-scouter statistics record of `getScouterStats` (its `positions` map is
kept as an insertion-ordered association list). -/
structure ScouterStats where
  totalMatches : Nat
  positions : List (String × Nat)
deriving DecidableEq, Repr

/-- Bump the per-position counter inside one scouter's statistics. -/
def bumpPosition (pos : String) : List (String × Nat) → List (String × Nat)
  | [] => [(pos, 1)]
  | (q, n) :: rest =>
    if q = pos then (q, n + 1) :: rest else (q, n) :: bumpPosition pos rest

/-- Record one non-empty assignment into the statistics association list. -/
def bumpScouter (name pos : String) : List (String × ScouterStats) →
    List (String × ScouterStats)
  | [] => [(name, { totalMatches := 1, positions := [(pos, 1)] })]
  | (q, st) :: rest =>
    if q = name then
      (q, { totalMatches := st.totalMatches + 1,
            positions := bumpPosition pos st.positions }) :: rest
    else (q, st) :: bumpScouter name pos rest

/-- Embedding of `getScouterStats`: fold every non-empty assignment of the
schedule into an insertion-ordered map keyed by scouter name. -/
def getScouterStats (gs : GeneratedSchedule) : List (String × ScouterStats) :=
  gs.schedule.foldl (fun stats m =>
    m.assignments.foldl (fun stats a =>
      if a.scouter = "" then stats else bumpScouter a.scouter a.position stats) stats) []

/-- Embedding of `getNextScouterForPosition`: the scouter holding `position` in
the match numbered `currentMatchNumber + 1`, or `none` when there is no such
match, no such position there, or the slot is empty. -/
def getNextScouterForPosition (gs : GeneratedSchedule) (currentMatchNumber : Int)
    (position : String) : Option String :=
  match gs.schedule.find? (fun m => decide (m.matchNumber = currentMatchNumber + 1)) with
  | none => none
  | some m =>
    match m.assignments.find? (fun a => a.position = position) with
    | none => none
    | some a => if a.scouter = "" then none else some a.scouter

/-- Embedding of `isLastMatchOfTurn`: scan the scouter's per-turn assignment
lists for one whose last entry carries the queried match number. -/
def isLastMatchOfTurn (gs : GeneratedSchedule) (matchNumber : Int) (name : String) :
    LastMatchResult :=
  match (getScouterAssignments gs name).find? (fun ta =>
      match ta.assignments.getLast? with
      | some la => decide (la.matchNumber = matchNumber)
      | none => false) with
  | some ta => { isLast := true, turnNumber := some ta.turn }
  | none => { isLast := false, turnNumber := none }

/-! ### Lemmas about the sorting and range helpers -/

theorem jsSortInsert_perm (le : α → α → Bool) (x : α) (l : List α) :
    (jsSortInsert le x l).Perm (x :: l) := by
  induction l with
  | nil => exact List.Perm.refl _
  | cons y ys ih =>
    by_cases h : le y x
    · simp only [jsSortInsert, h, if_true]
      exact ((ih.cons y).trans (List.Perm.swap x y ys))
    · simp only [jsSortInsert, h, if_false]
      exact List.Perm.refl _

theorem jsSort_foldl_perm (le : α → α → Bool) (l acc : List α) :
    (l.foldl (fun acc x => jsSortInsert le x acc) acc).Perm (acc ++ l) := by
  induction l generalizing acc with
  | nil => simp
  | cons x xs ih =>
    simp only [List.foldl_cons]
    refine (ih (jsSortInsert le x acc)).trans ?_
    refine (List.Perm.append_right xs ((jsSortInsert_perm le x acc))).trans ?_
    exact (List.perm_middle).symm

theorem jsSort_perm (le : α → α → Bool) (l : List α) : (jsSort le l).Perm l := by
  simpa using jsSort_foldl_perm le l []

theorem jsSort_mem (le : α → α → Bool) (l : List α) (x : α) :
    x ∈ jsSort le l ↔ x ∈ l :=
  (jsSort_perm le l).mem_iff

theorem jsSortInsert_pairwise (le : α → α → Bool)
    (htrans : ∀ a b c, le a b = true → le b c = true → le a c = true)
    (htot : ∀ a b, le a b || le b a) (x : α) (l : List α)
    (hl : l.Pairwise (fun a b => le a b = true)) :
    (jsSortInsert le x l).Pairwise (fun a b => le a b = true) := by
  induction l with
  | nil => simp [jsSortInsert]
  | cons y ys ih =>
    rcases List.pairwise_cons.mp hl with ⟨hy, hys⟩
    by_cases h : le y x
    · simp only [jsSortInsert, h, if_true]
      refine List.pairwise_cons.mpr ⟨?_, ih hys⟩
      intro z hz
      have hz' := (jsSortInsert_perm le x ys).mem_iff.mp hz
      rcases List.mem_cons.mp hz' with rfl | hzys
      · exact h
      · exact hy z hzys
    · simp only [jsSortInsert, h, if_false]
      refine List.pairwise_cons.mpr ⟨?_, hl⟩
      intro z hz
      have hxy : le x y = true := by
        have := htot y x
        simp only [h, Bool.false_or] at this
        exact this
      rcases List.mem_cons.mp hz with rfl | hzys
      · exact hxy
      · exact htrans x y z hxy (hy z hzys)

theorem jsSort_foldl_pairwise (le : α → α → Bool)
    (htrans : ∀ a b c, le a b = true → le b c = true → le a c = true)
    (htot : ∀ a b, le a b || le b a) (l acc : List α)
    (hacc : acc.Pairwise (fun a b => le a b = true)) :
    (l.foldl (fun acc x => jsSortInsert le x acc) acc).Pairwise
      (fun a b => le a b = true) := by
  induction l generalizing acc with
  | nil => exact hacc
  | cons x xs ih =>
    exact ih _ (jsSortInsert_pairwise le htrans htot x acc hacc)

theorem jsSort_pairwise (le : α → α → Bool)
    (htrans : ∀ a b c, le a b = true → le b c = true → le a c = true)
    (htot : ∀ a b, le a b || le b a) (l : List α) :
    (jsSort le l).Pairwise (fun a b => le a b = true) :=
  jsSort_foldl_pairwise le htrans htot l [] (List.Pairwise.nil)

theorem intRangeAux_mem (n : Nat) (a m : Int) :
    m ∈ intRangeAux a n ↔ a ≤ m ∧ m < a + (n : Int) := by
  induction n generalizing a with
  | zero =>
    simp only [intRangeAux, List.not_mem_nil, false_iff]
    omega
  | succ n ih =>
    simp only [intRangeAux, List.mem_cons, ih]
    omega

theorem intRange_mem (a b m : Int) : m ∈ intRange a b ↔ a ≤ m ∧ m ≤ b := by
  rw [intRange, intRangeAux_mem]
  omega

/-! ### Structure of the turn list built by `calculateTurns` -/

theorem buildTurns_ne_nil (idx : Nat) (start total : Int) (bs : List Int) :
    buildTurns idx start total bs ≠ [] := by
  cases bs <;> simp [buildTurns]

theorem buildTurns_cover (total : Int) (bs : List Int) (idx : Nat) (start : Int)
    (hlt : ∀ b ∈ bs, b < total) (hstart : ∀ b ∈ bs, start ≤ b + 1)
    (hpair : bs.Pairwise (fun a b => a ≤ b)) (m : Int) :
    (start ≤ m ∧ m ≤ total) ↔
      ∃ t ∈ buildTurns idx start total bs, t.startMatch ≤ m ∧ m ≤ t.endMatch := by
  induction bs generalizing idx start with
  | nil => simp [buildTurns]
  | cons b bs ih =>
    have hblt : b < total := hlt b (List.mem_cons_self b bs)
    have hsb : start ≤ b + 1 := hstart b (List.mem_cons_self b bs)
    rcases List.pairwise_cons.mp hpair with ⟨hble, hpair'⟩
    have ih' := ih (idx + 1) (b + 1)
      (fun b' hb' => hlt b' (List.mem_cons_of_mem _ hb'))
      (fun b' hb' => by have := hble b' hb'; omega) hpair'
    simp only [buildTurns, List.exists_mem_cons_iff, ← ih']
    omega

theorem buildTurns_startMatch_ge (total : Int) (bs : List Int) (idx : Nat) (start : Int)
    (hstart : ∀ b ∈ bs, start ≤ b + 1) (hpair : bs.Pairwise (fun a b => a ≤ b)) :
    ∀ t ∈ buildTurns idx start total bs, start ≤ t.startMatch := by
  induction bs generalizing idx start with
  | nil =>
    intro t ht
    simp only [buildTurns, List.mem_singleton] at ht
    subst ht; exact le_refl _
  | cons b bs ih =>
    intro t ht
    have hsb : start ≤ b + 1 := hstart b (List.mem_cons_self b bs)
    rcases List.pairwise_cons.mp hpair with ⟨hble, hpair'⟩
    simp only [buildTurns, List.mem_cons] at ht
    rcases ht with rfl | ht
    · exact le_refl _
    · have := ih (idx + 1) (b + 1)
        (fun b' hb' => by have := hble b' hb'; omega) hpair' t ht
      omega

theorem buildTurns_separated (total : Int) (bs : List Int) (idx : Nat) (start : Int)
    (hstart : ∀ b ∈ bs, start ≤ b + 1) (hpair : bs.Pairwise (fun a b => a ≤ b)) :
    (buildTurns idx start total bs).Pairwise
      (fun t1 t2 => t1.endMatch < t2.startMatch) := by
  induction bs generalizing idx start with
  | nil => simp [buildTurns]
  | cons b bs ih =>
    rcases List.pairwise_cons.mp hpair with ⟨hble, hpair'⟩
    have hstart' : ∀ b' ∈ bs, b + 1 ≤ b' + 1 :=
      fun b' hb' => by have := hble b' hb'; omega
    simp only [buildTurns, List.pairwise_cons]
    constructor
    · intro t ht
      have := buildTurns_startMatch_ge total bs (idx + 1) (b + 1) hstart' hpair' t ht
      omega
    · exact ih (idx + 1) (b + 1) hstart' hpair'

theorem buildTurns_getLast (total : Int) (bs : List Int) (idx : Nat) (start : Int) :
    ∃ t, (buildTurns idx start total bs).getLast? = some t ∧ t.endMatch = total := by
  induction bs generalizing idx start with
  | nil => exact ⟨⟨(idx : Int), start, total⟩, rfl, rfl⟩
  | cons b bs ih =>
    rcases ih (idx + 1) (b + 1) with ⟨t, ht, hend⟩
    refine ⟨t, ?_, hend⟩
    rw [buildTurns]
    rcases h : buildTurns (idx + 1) (b + 1) total bs with _ | ⟨u, us⟩
    · exact absurd h (buildTurns_ne_nil _ _ _ _)
    · rw [h] at ht
      rw [List.getLast?_cons_cons]
      exact ht

theorem buildTurns_bounds (total : Int) (bs : List Int) (idx : Nat) (start : Int) :
    ∀ t ∈ buildTurns idx start total bs,
      (t.endMatch ∈ bs ∨ t.endMatch = total) ∧
      (t.startMatch = start ∨ ∃ b ∈ bs, t.startMatch = b + 1) := by
  induction bs generalizing idx start with
  | nil =>
    intro t ht
    simp only [buildTurns, List.mem_singleton] at ht
    subst ht
    exact ⟨Or.inr rfl, Or.inl rfl⟩
  | cons b bs ih =>
    intro t ht
    simp only [buildTurns, List.mem_cons] at ht
    rcases ht with rfl | ht
    · exact ⟨Or.inl (List.mem_cons_self b bs), Or.inl rfl⟩
    · rcases ih (idx + 1) (b + 1) t ht with ⟨h1, h2⟩
      refine ⟨?_, ?_⟩
      · rcases h1 with h1 | h1
        · exact Or.inl (List.mem_cons_of_mem _ h1)
        · exact Or.inr h1
      · rcases h2 with h2 | h2
        · exact Or.inr ⟨b, List.mem_cons_self b bs, h2⟩
        · rcases h2 with ⟨b', hb', he⟩
          exact Or.inr ⟨b', List.mem_cons_of_mem _ hb', he⟩

theorem intLe_trans (a b c : Int) :
    decide (a ≤ b) = true → decide (b ≤ c) = true → decide (a ≤ c) = true := by
  simp only [decide_eq_true_eq]
  omega

theorem intLe_total (a b : Int) : (decide (a ≤ b) || decide (b ≤ a)) = true := by
  simp only [Bool.or_eq_true, decide_eq_true_eq]
  omega

/-- The sorted, filtered break-point list used inside `calculateTurns`. -/
def survivingBreaks (totalMatches : Int) (breakPoints : List Int) : List Int :=
  (jsSort (fun a b => decide (a ≤ b)) breakPoints).filter
    (fun bp => decide (0 < bp) && decide (bp < totalMatches))

theorem calculateTurns_eq_build (totalMatches : Int) (breakPoints : List Int) :
    calculateTurns totalMatches breakPoints =
      buildTurns 1 1 totalMatches (survivingBreaks totalMatches breakPoints) := rfl

theorem survivingBreaks_mem (total : Int) (bps : List Int) (x : Int) :
    x ∈ survivingBreaks total bps ↔ x ∈ bps ∧ 0 < x ∧ x < total := by
  simp only [survivingBreaks, List.mem_filter, jsSort_mem, Bool.and_eq_true,
    decide_eq_true_eq]

theorem survivingBreaks_pairwise (total : Int) (bps : List Int) :
    (survivingBreaks total bps).Pairwise (fun a b => a ≤ b) := by
  have h := jsSort_pairwise (fun a b : Int => decide (a ≤ b)) intLe_trans intLe_total bps
  have h' := List.Pairwise.filter
    (fun bp => decide (0 < bp) && decide (bp < total)) h
  exact h'.imp (fun hab => of_decide_eq_true hab)

theorem buildTurns_head_shape (total : Int) (bs : List Int) (idx : Nat) (start : Int) :
    ∃ e rest, buildTurns idx start total bs = ⟨(idx : Int), start, e⟩ :: rest := by
  cases bs <;> exact ⟨_, _, rfl⟩

/-- C5: for every `totalMatches ≥ 1` and every raw break-point list, the turns
returned by `calculateTurns` partition `[1, totalMatches]` exactly — a match
number is in `[1, totalMatches]` iff some turn's inclusive range contains it,
the ranges are pairwise non-overlapping (each ends before the next starts),
the first turn starts at match 1, the last turn ends at `totalMatches`, and
every turn boundary other than `1` and `totalMatches` comes from a break point
strictly between `0` and `totalMatches`, so out-of-range break points never
appear as boundaries. -/
theorem calculateTurns_partition (total : Int) (bps : List Int) (htotal : 1 ≤ total) :
    (∀ m : Int, (1 ≤ m ∧ m ≤ total) ↔
        ∃ t ∈ calculateTurns total bps, t.startMatch ≤ m ∧ m ≤ t.endMatch) ∧
    (calculateTurns total bps).Pairwise (fun t1 t2 => t1.endMatch < t2.startMatch) ∧
    (∃ t0 rest, calculateTurns total bps = t0 :: rest ∧ t0.startMatch = 1) ∧
    ((calculateTurns total bps).getLast?.map Turn.endMatch = some total) ∧
    (∀ t ∈ calculateTurns total bps,
      (t.endMatch = total ∨ (t.endMatch ∈ bps ∧ 0 < t.endMatch ∧ t.endMatch < total)) ∧
      (t.startMatch = 1 ∨ ∃ b ∈ bps, 0 < b ∧ b < total ∧ t.startMatch = b + 1)) := by
  have hmem := survivingBreaks_mem total bps
  have hlt : ∀ b ∈ survivingBreaks total bps, b < total :=
    fun b hb => ((hmem b).mp hb).2.2
  have hstart : ∀ b ∈ survivingBreaks total bps, (1 : Int) ≤ b + 1 :=
    fun b hb => by have := ((hmem b).mp hb).2.1; omega
  have hpair := survivingBreaks_pairwise total bps
  rw [calculateTurns_eq_build]
  refine ⟨?_, ?_, ?_, ?_, ?_⟩
  · intro m
    exact buildTurns_cover total (survivingBreaks total bps) 1 1 hlt hstart hpair m
  · exact buildTurns_separated total (survivingBreaks total bps) 1 1 hstart hpair
  · rcases buildTurns_head_shape total (survivingBreaks total bps) 1 1 with ⟨e, rest, hshape⟩
    exact ⟨_, rest, hshape, rfl⟩
  · rcases buildTurns_getLast total (survivingBreaks total bps) 1 1 with ⟨t, ht, hend⟩
    rw [ht]
    simp only [Option.map_some', hend]
  · intro t ht
    rcases buildTurns_bounds total (survivingBreaks total bps) 1 1 t ht with ⟨h1, h2⟩
    refine ⟨?_, ?_⟩
    · rcases h1 with h1 | h1
      · exact Or.inr ((hmem t.endMatch).mp h1)
      · exact Or.inl h1
    · rcases h2 with h2 | h2
      · exact Or.inl h2
      · rcases h2 with ⟨b, hb, he⟩
        rcases (hmem b).mp hb with ⟨hb1, hb2, hb3⟩
        exact Or.inr ⟨b, hb1, hb2, hb3, he⟩

/-- Witness for `calculateTurns_partition` at `totalMatches = 72`,
`breakPoints = [20, 40]`: match 35 lies in `[1, 72]`, hence in a turn range. -/
theorem calculateTurns_partition_witness :
    ∃ t ∈ calculateTurns 72 [20, 40], t.startMatch ≤ 35 ∧ 35 ≤ t.endMatch :=
  ((calculateTurns_partition 72 [20, 40] (by decide)).1 35).mp (by decide)

theorem jsSort_eq_mergeSort (l : List Int) :
    jsSort (fun a b => decide (a ≤ b)) l = l.mergeSort (fun a b => decide (a ≤ b)) := by
  have hperm : (jsSort (fun a b => decide (a ≤ b)) l).Perm
      (l.mergeSort (fun a b => decide (a ≤ b))) :=
    (jsSort_perm _ l).trans (List.mergeSort_perm l _).symm
  have h1 : (jsSort (fun a b => decide (a ≤ b)) l).Sorted (fun a b : Int => a ≤ b) :=
    (jsSort_pairwise _ intLe_trans intLe_total l).imp (fun h => of_decide_eq_true h)
  have h2 : (l.mergeSort (fun a b => decide (a ≤ b))).Sorted (fun a b : Int => a ≤ b) :=
    (List.sorted_mergeSort intLe_trans intLe_total l).imp (fun h => of_decide_eq_true h)
  exact List.eq_of_perm_of_sorted hperm h1 h2

/-- Reference formulation of the Turn Calculator, following the specification
text: one turn per surviving break point, spanning from the previous break
plus one (or `1` for the first) through that break point, tracked through the
`prev` argument. -/
def turnsFromBreaks (total : Int) (prev : Option Int) (k : Nat) : List Int → List Turn
  | [] => [⟨(k : Int), (match prev with | none => 1 | some b => b + 1), total⟩]
  | b :: bs =>
    ⟨(k : Int), (match prev with | none => 1 | some b' => b' + 1), b⟩ ::
      turnsFromBreaks total (some b) (k + 1) bs

/-- Reference definition of `calculateTurns` written from the specification's
words: sort the break points ascending, drop every value `≤ 0` or
`≥ totalMatches`, build one turn per surviving break point from the previous
break plus one through it, and append a final turn from the last surviving
break plus one (or `1` if none survive) through `totalMatches`. -/
def calculateTurnsSpec (total : Int) (bps : List Int) : List Turn :=
  turnsFromBreaks total none 1
    ((List.mergeSort bps (fun a b => decide (a ≤ b))).filter
      (fun bp => decide (0 < bp) && decide (bp < total)))

theorem buildTurns_eq_turnsFromBreaks (total : Int) (bs : List Int) :
    ∀ (idx : Nat) (prev : Option Int),
      buildTurns idx (match prev with | none => 1 | some b => b + 1) total bs =
        turnsFromBreaks total prev idx bs := by
  induction bs with
  | nil => intro idx prev; rfl
  | cons b bs ih =>
    intro idx prev
    show (⟨(idx : Int), (match prev with | none => 1 | some b' => b' + 1), b⟩ : Turn) ::
        buildTurns (idx + 1) (b + 1) total bs =
      (⟨(idx : Int), (match prev with | none => 1 | some b' => b' + 1), b⟩ : Turn) ::
        turnsFromBreaks total (some b) (idx + 1) bs
    exact congrArg _ (ih (idx + 1) (some b))

/-- C4: `calculateTurns` coincides with the specification's reference
definition (sort ascending, drop out-of-range values, one turn per surviving
break point, final turn through `totalMatches`) on all inputs, and on the
spec's example `totalMatches = 72`, `breakPoints = [20, 40]` it returns
exactly the turns `(1,1,20)`, `(2,21,40)`, `(3,41,72)`. -/
theorem calculateTurns_spec_conformance :
    (∀ (total : Int) (bps : List Int),
      calculateTurns total bps = calculateTurnsSpec total bps) ∧
    calculateTurns 72 [20, 40] = [⟨1, 1, 20⟩, ⟨2, 21, 40⟩, ⟨3, 41, 72⟩] := by
  constructor
  · intro total bps
    rw [calculateTurns_eq_build, calculateTurnsSpec]
    have hs : survivingBreaks total bps =
        (List.mergeSort bps (fun a b => decide (a ≤ b))).filter
          (fun bp => decide (0 < bp) && decide (bp < total)) := by
      rw [survivingBreaks, jsSort_eq_mergeSort]
    rw [hs]
    exact buildTurns_eq_turnsFromBreaks total _ 1 none
  · decide

/-! ### Validator facts -/

theorem notEnoughCheck_error (a b : Nat) : ∀ x ∈ notEnoughCheck a b, x.type = .error := by
  intro x hx
  unfold notEnoughCheck at hx
  split at hx
  · rw [List.mem_singleton] at hx; subst hx; rfl
  · exact absurd hx (List.not_mem_nil x)

theorem emptyNamesCheck_error (l : List String) :
    ∀ x ∈ emptyNamesCheck l, x.type = .error := by
  intro x hx
  unfold emptyNamesCheck at hx
  split at hx
  · rw [List.mem_singleton] at hx; subst hx; rfl
  · exact absurd hx (List.not_mem_nil x)

theorem noLeadsCheck_error (l : List String) : ∀ x ∈ noLeadsCheck l, x.type = .error := by
  intro x hx
  unfold noLeadsCheck at hx
  split at hx
  · rw [List.mem_singleton] at hx; subst hx; rfl
  · exact absurd hx (List.not_mem_nil x)

theorem noCamerasCheck_error (l : List String) :
    ∀ x ∈ noCamerasCheck l, x.type = .error := by
  intro x hx
  unfold noCamerasCheck at hx
  split at hx
  · rw [List.mem_singleton] at hx; subst hx; rfl
  · exact absurd hx (List.not_mem_nil x)

theorem capCheck_error (t : Int) (a b : Nat) (c : ScheduleConstraints) :
    ∀ x ∈ capCheck t a b c, x.type = .error := by
  intro x hx
  unfold capCheck at hx
  split at hx
  · exact absurd hx (List.not_mem_nil x)
  · split at hx
    · rw [List.mem_singleton] at hx; subst hx; rfl
    · exact absurd hx (List.not_mem_nil x)

theorem turnCoverageCheck_error (t : Int) (turns : List Turn) :
    ∀ x ∈ turnCoverageCheck t turns, x.type = .error := by
  intro x hx
  unfold turnCoverageCheck at hx
  split at hx
  · rw [List.mem_singleton] at hx; subst hx; rfl
  · split at hx
    · rw [List.mem_singleton] at hx; subst hx; rfl
    · exact absurd hx (List.not_mem_nil x)

theorem validateScheduleConfig_all_error (e : EventConfig) (p : Personnel)
    (sh : ShiftConfig) (c : ScheduleConstraints) :
    ∀ x ∈ validateScheduleConfig e p sh c, x.type = .error := by
  intro x hx
  simp only [validateScheduleConfig, List.mem_append] at hx
  rcases hx with ((((hx | hx) | hx) | hx) | hx) | hx
  · exact notEnoughCheck_error _ _ x hx
  · exact emptyNamesCheck_error _ x hx
  · exact noLeadsCheck_error _ x hx
  · exact noCamerasCheck_error _ x hx
  · exact capCheck_error _ _ _ _ x hx
  · exact turnCoverageCheck_error _ _ x hx

theorem validateScheduleConfig_filter_error (e : EventConfig) (p : Personnel)
    (sh : ShiftConfig) (c : ScheduleConstraints) :
    (validateScheduleConfig e p sh c).filter (fun x => decide (x.type = .error)) =
      validateScheduleConfig e p sh c := by
  apply List.filter_eq_self.mpr
  intro a ha
  rw [validateScheduleConfig_all_error e p sh c a ha]
  rfl

theorem generateSchedule_eq_of_valid (e : EventConfig) (p : Personnel)
    (sh : ShiftConfig) (c : ScheduleConstraints)
    (h : validateScheduleConfig e p sh c = []) :
    generateSchedule e p sh c = generateScheduleSuccess e p sh [] := by
  simp only [generateSchedule, h, List.filter_nil, List.length_nil]
  rfl

theorem generateSchedule_of_invalid (e : EventConfig) (p : Personnel)
    (sh : ShiftConfig) (c : ScheduleConstraints)
    (h : validateScheduleConfig e p sh c ≠ []) :
    (generateSchedule e p sh c).success = false ∧
      (generateSchedule e p sh c).schedule = none := by
  have hlen : 0 < ((validateScheduleConfig e p sh c).filter
      (fun x => decide (x.type = .error))).length := by
    rw [validateScheduleConfig_filter_error]
    cases hv : validateScheduleConfig e p sh c with
    | nil => exact absurd hv h
    | cons a l => simp
  constructor <;> simp only [generateSchedule, if_pos hlen]

theorem generateSchedule_success_iff (e : EventConfig) (p : Personnel)
    (sh : ShiftConfig) (c : ScheduleConstraints) :
    (generateSchedule e p sh c).success = true ↔
      validateScheduleConfig e p sh c = [] := by
  constructor
  · intro hs
    by_contra hne
    rw [(generateSchedule_of_invalid e p sh c hne).1] at hs
    exact Bool.false_ne_true hs
  · intro hv
    rw [generateSchedule_eq_of_valid e p sh c hv]
    rfl

theorem validate_components_nil (e : EventConfig) (p : Personnel) (sh : ShiftConfig)
    (c : ScheduleConstraints) (hv : validateScheduleConfig e p sh c = []) :
    notEnoughCheck (getPositions e).length p.scouters.length = [] ∧
    emptyNamesCheck p.scouters = [] ∧ noLeadsCheck p.leadScouters = [] ∧
    noCamerasCheck p.cameras = [] ∧
    capCheck e.totalMatches (getPositions e).length p.scouters.length c = [] ∧
    turnCoverageCheck e.totalMatches sh.turns = [] := by
  simp only [validateScheduleConfig, List.append_eq_nil] at hv
  exact ⟨hv.1.1.1.1.1, hv.1.1.1.1.2, hv.1.1.1.2, hv.1.1.2, hv.1.2, hv.2⟩

theorem validate_nil_of_components (e : EventConfig) (p : Personnel) (sh : ShiftConfig)
    (c : ScheduleConstraints)
    (h1 : notEnoughCheck (getPositions e).length p.scouters.length = [])
    (h2 : emptyNamesCheck p.scouters = []) (h3 : noLeadsCheck p.leadScouters = [])
    (h4 : noCamerasCheck p.cameras = [])
    (h5 : capCheck e.totalMatches (getPositions e).length p.scouters.length c = [])
    (h6 : turnCoverageCheck e.totalMatches sh.turns = []) :
    validateScheduleConfig e p sh c = [] := by
  simp only [validateScheduleConfig, h1, h2, h3, h4, h5, h6, List.append_nil]

theorem notEnoughCheck_message (a b : Nat) :
    ∀ x ∈ notEnoughCheck a b, x.message = "Not enough scouters" := by
  intro x hx
  unfold notEnoughCheck at hx
  split at hx
  · rw [List.mem_singleton] at hx; subst hx; rfl
  · exact absurd hx (List.not_mem_nil x)

theorem emptyNamesCheck_message (l : List String) :
    ∀ x ∈ emptyNamesCheck l, x.message = "Empty scouter names" := by
  intro x hx
  unfold emptyNamesCheck at hx
  split at hx
  · rw [List.mem_singleton] at hx; subst hx; rfl
  · exact absurd hx (List.not_mem_nil x)

theorem noLeadsCheck_message (l : List String) :
    ∀ x ∈ noLeadsCheck l, x.message = "No lead scouters" := by
  intro x hx
  unfold noLeadsCheck at hx
  split at hx
  · rw [List.mem_singleton] at hx; subst hx; rfl
  · exact absurd hx (List.not_mem_nil x)

theorem noCamerasCheck_message (l : List String) :
    ∀ x ∈ noCamerasCheck l, x.message = "No camera operators" := by
  intro x hx
  unfold noCamerasCheck at hx
  split at hx
  · rw [List.mem_singleton] at hx; subst hx; rfl
  · exact absurd hx (List.not_mem_nil x)

theorem turnCoverageCheck_message (t : Int) (turns : List Turn) :
    ∀ x ∈ turnCoverageCheck t turns,
      x.message = "No turns defined" ∨ x.message = "Gaps in turn coverage" := by
  intro x hx
  unfold turnCoverageCheck at hx
  split at hx
  · rw [List.mem_singleton] at hx; subst hx; exact Or.inl rfl
  · split at hx
    · rw [List.mem_singleton] at hx; subst hx; exact Or.inr rfl
    · exact absurd hx (List.not_mem_nil x)

theorem capCheck_mem_iff (t : Int) (a b : Nat) (c : ScheduleConstraints) (cap : Int)
    (hcap : c.maxMatchesPerScouter = some cap) :
    capacityError t a b cap ∈ capCheck t a b c ↔ (b : Int) * cap < t * (a : Int) := by
  unfold capCheck
  rw [hcap]
  show capacityError t a b cap ∈
      (if (b : Int) * cap < t * (a : Int) then [capacityError t a b cap] else []) ↔
    (b : Int) * cap < t * (a : Int)
  by_cases h : (b : Int) * cap < t * (a : Int)
  · simp [if_pos h, h]
  · simp [if_neg h, h]

theorem capacityError_message (t : Int) (a b : Nat) (cap : Int) :
    (capacityError t a b cap).message = "Max matches constraint cannot be satisfied" := rfl

theorem capCheck_nil_of_ge (t : Int) (a b : Nat) (c : ScheduleConstraints) (cap : Int)
    (hcap : c.maxMatchesPerScouter = some cap)
    (h : ¬ (b : Int) * cap < t * (a : Int)) : capCheck t a b c = [] := by
  unfold capCheck
  rw [hcap]
  show (if (b : Int) * cap < t * (a : Int) then [capacityError t a b cap] else []) = []
  rw [if_neg h]

theorem capacityError_mem_validate_iff (e : EventConfig) (p : Personnel)
    (sh : ShiftConfig) (c : ScheduleConstraints) (cap : Int)
    (hcap : c.maxMatchesPerScouter = some cap) :
    capacityError e.totalMatches (getPositions e).length p.scouters.length cap ∈
        validateScheduleConfig e p sh c ↔
      (p.scouters.length : Int) * cap <
        e.totalMatches * (((getPositions e).length : Nat) : Int) := by
  constructor
  · intro hmem
    simp only [validateScheduleConfig, List.mem_append] at hmem
    rcases hmem with ((((hx | hx) | hx) | hx) | hx) | hx
    · have := notEnoughCheck_message _ _ _ hx
      rw [capacityError_message] at this
      exact absurd this (by decide)
    · have := emptyNamesCheck_message _ _ hx
      rw [capacityError_message] at this
      exact absurd this (by decide)
    · have := noLeadsCheck_message _ _ hx
      rw [capacityError_message] at this
      exact absurd this (by decide)
    · have := noCamerasCheck_message _ _ hx
      rw [capacityError_message] at this
      exact absurd this (by decide)
    · exact (capCheck_mem_iff _ _ _ _ cap hcap).mp hx
    · have := turnCoverageCheck_message _ _ _ hx
      rw [capacityError_message] at this
      rcases this with h | h <;> exact absurd h (by decide)
  · intro hlt
    simp only [validateScheduleConfig, List.mem_append]
    exact Or.inl (Or.inr ((capCheck_mem_iff _ _ _ _ cap hcap).mpr hlt))

/-- C6: with a cap `c` set, the validator emits the capacity error (with its
details citing the required and available assignment figures) exactly when
`scouters.length * c < totalMatches * positionsPerMatch`; in that case
`generateSchedule` fails with a `none` schedule, and when the cap is feasible
and every other check passes, generation succeeds. -/
theorem capFeasibility (e : EventConfig) (p : Personnel) (sh : ShiftConfig)
    (cons : ScheduleConstraints) (cap : Int)
    (hcap : cons.maxMatchesPerScouter = some cap) :
    (capacityError e.totalMatches (getPositions e).length p.scouters.length cap ∈
        validateScheduleConfig e p sh cons ↔
      (p.scouters.length : Int) * cap <
        e.totalMatches * (((getPositions e).length : Nat) : Int)) ∧
    ((p.scouters.length : Int) * cap <
        e.totalMatches * (((getPositions e).length : Nat) : Int) →
      (generateSchedule e p sh cons).success = false ∧
        (generateSchedule e p sh cons).schedule = none) ∧
    (e.totalMatches * (((getPositions e).length : Nat) : Int) ≤
        (p.scouters.length : Int) * cap →
      (getPositions e).length ≤ p.scouters.length →
      (∀ s ∈ p.scouters, jsTrim s ≠ "") →
      p.leadScouters ≠ [] → p.cameras ≠ [] → sh.turns ≠ [] →
      (∀ m : Int, 1 ≤ m → m ≤ e.totalMatches →
        ∃ t ∈ sh.turns, t.startMatch ≤ m ∧ m ≤ t.endMatch) →
      (generateSchedule e p sh cons).success = true) := by
  refine ⟨capacityError_mem_validate_iff e p sh cons cap hcap, ?_, ?_⟩
  · intro hlt
    apply generateSchedule_of_invalid
    intro hv
    have h5 := (validate_components_nil e p sh cons hv).2.2.2.2.1
    have hmem := (capCheck_mem_iff e.totalMatches (getPositions e).length
      p.scouters.length cons cap hcap).mpr hlt
    rw [h5] at hmem
    exact List.not_mem_nil _ hmem
  · intro hge hn hnames hleads hcams hturns hcover
    rw [generateSchedule_success_iff]
    apply validate_nil_of_components
    · unfold notEnoughCheck
      rw [if_neg (by omega)]
    · unfold emptyNamesCheck
      rw [if_neg ?_]
      intro hany
      rw [List.any_eq_true] at hany
      rcases hany with ⟨s, hs, hts⟩
      exact hnames s hs (of_decide_eq_true hts)
    · unfold noLeadsCheck
      rw [if_neg (by simpa using hleads)]
    · unfold noCamerasCheck
      rw [if_neg (by simpa using hcams)]
    · exact capCheck_nil_of_ge _ _ _ _ cap hcap (by omega)
    · unfold turnCoverageCheck
      rw [if_neg (by simpa using hturns)]
      have hfind : (intRange 1 e.totalMatches).find?
          (fun i => ! sh.turns.any (fun t => turnCovers t i)) = none := by
        rw [List.find?_eq_none]
        intro i hi
        rcases (intRange_mem 1 e.totalMatches i).mp hi with ⟨hi1, hi2⟩
        rcases hcover i hi1 hi2 with ⟨t, ht, hc1, hc2⟩
        simp only [Bool.not_eq_true', Bool.not_eq_false]
        rw [List.any_eq_true]
        exact ⟨t, ht, by simp [turnCovers, hc1, hc2]⟩
      rw [hfind]

/-! ### Concrete configurations used by counterexamples and witnesses -/

/-- A sample event with the given match count and six teams per match
(positions `B 1`..`B 3`, `R 1`..`R 3`). -/
def sampleEvent (total : Int) : EventConfig :=
  { localLabel := "Event", tbaLabel := "evt", amountOfTeams := 0, matchesPerTeam := 0,
    totalMatches := total, teamsPerMatch := 6, allianceBlue := "B", allianceRed := "R" }

/-- Twelve pairwise-distinct scouter names. -/
def roster12 : List String :=
  ["S01", "S02", "S03", "S04", "S05", "S06", "S07", "S08", "S09", "S10", "S11", "S12"]

/-- Six pairwise-distinct scouter names. -/
def roster6 : List String := ["S01", "S02", "S03", "S04", "S05", "S06"]

/-- Personnel with one lead scouter, one camera operator and the given roster. -/
def onePersonnel (scouters : List String) : Personnel :=
  { leadScouters := ["L1"], scouters := scouters, cameras := ["C1"] }

/-- A single turn covering matches 1 through 10. -/
def oneTurn10 : ShiftConfig := { breakPoints := [], turns := [⟨1, 1, 10⟩] }

/-- Two overlapping turns that both span matches 1 through 2. -/
def overlapShift : ShiftConfig := { breakPoints := [], turns := [⟨1, 1, 2⟩, ⟨2, 1, 2⟩] }

/-- One turn covering only match 1 of a two-match event (match 2 uncovered). -/
def gapShift : ShiftConfig := { breakPoints := [], turns := [⟨1, 1, 1⟩] }

/-- Number of matches of the schedule in which the named scouter appears among
the assignments. -/
def scouterMatchTotal (gs : GeneratedSchedule) (name : String) : Nat :=
  (gs.schedule.filter (fun m => m.assignments.any (fun a => a.scouter = name))).length

/-- C1 counterexample: with cap 5, 12 scouters, 10 matches and one turn, the
capacity pre-check passes (60 ≥ 60) and generation succeeds, yet scouter
`"S01"` is assigned 10 > 5 matches — the cap is not honored during
assignment, only in the pre-check. -/
theorem cap_exceeded_in_assignment :
    (⟨some 5⟩ : ScheduleConstraints).maxMatchesPerScouter = some 5 ∧
    "S01" ∈ (onePersonnel roster12).scouters ∧
    (generateSchedule (sampleEvent 10) (onePersonnel roster12) oneTurn10
      ⟨some 5⟩).success = true ∧
    ((generateSchedule (sampleEvent 10) (onePersonnel roster12) oneTurn10
        ⟨some 5⟩).schedule.map (fun gs => scouterMatchTotal gs "S01")) = some 10 ∧
    ¬ (10 : Nat) ≤ 5 := by
  refine ⟨rfl, by decide, by decide, by decide, by decide⟩

/-- C1 (amended): when a cap `c` is set and `generateSchedule` succeeds, the
aggregate capacity inequality `totalMatches * positionsPerMatch ≤
scouters.length * c` holds — the cap is honored only through this validation
pre-check, not per scouter during assignment. -/
theorem generateSchedule_cap_precheck (e : EventConfig) (p : Personnel)
    (sh : ShiftConfig) (cons : ScheduleConstraints) (cap : Int)
    (hcap : cons.maxMatchesPerScouter = some cap)
    (hs : (generateSchedule e p sh cons).success = true) :
    e.totalMatches * (((getPositions e).length : Nat) : Int) ≤
      (p.scouters.length : Int) * cap := by
  rw [generateSchedule_success_iff] at hs
  by_contra hlt
  have h5 := (validate_components_nil e p sh cons hs).2.2.2.2.1
  have hmem := (capCheck_mem_iff e.totalMatches (getPositions e).length
    p.scouters.length cons cap hcap).mpr (by omega)
  rw [h5] at hmem
  exact List.not_mem_nil _ hmem

/-- Witness for `generateSchedule_cap_precheck` at the concrete cap-5
configuration. -/
theorem generateSchedule_cap_precheck_witness :
    (sampleEvent 10).totalMatches *
        (((getPositions (sampleEvent 10)).length : Nat) : Int) ≤
      (((onePersonnel roster12).scouters.length : Nat) : Int) * 5 :=
  generateSchedule_cap_precheck (sampleEvent 10) (onePersonnel roster12) oneTurn10
    ⟨some 5⟩ 5 rfl (by decide)

/-- C2 counterexample: a configuration whose two turns overlap (both contain
match 1, so the turn list does not partition `[1, totalMatches]`) on which
`validateScheduleConfig` returns no error at all and generation proceeds. -/
theorem validate_overlap_unchecked :
    validateScheduleConfig (sampleEvent 2) (onePersonnel roster6) overlapShift
        ⟨none⟩ = [] ∧
    overlapShift.turns = [⟨1, 1, 2⟩, ⟨2, 1, 2⟩] ∧
    ((⟨1, 1, 2⟩ : Turn).startMatch ≤ 1 ∧ (1 : Int) ≤ (⟨1, 1, 2⟩ : Turn).endMatch) ∧
    ((⟨2, 1, 2⟩ : Turn).startMatch ≤ 1 ∧ (1 : Int) ≤ (⟨2, 1, 2⟩ : Turn).endMatch) ∧
    (generateSchedule (sampleEvent 2) (onePersonnel roster6) overlapShift
      ⟨none⟩).success = true := by
  refine ⟨by decide, rfl, by decide, by decide, by decide⟩

/-- C2 (amended): whenever some match in `[1, totalMatches]` is covered by no
turn (a coverage gap, including the no-turns case), `validateScheduleConfig`
returns at least one error, so generation is blocked; overlaps between turn
ranges are not detected. -/
theorem validateScheduleConfig_gap_blocks (e : EventConfig) (p : Personnel)
    (sh : ShiftConfig) (c : ScheduleConstraints) (m : Int)
    (h1 : 1 ≤ m) (h2 : m ≤ e.totalMatches)
    (h3 : ∀ t ∈ sh.turns, ¬(t.startMatch ≤ m ∧ m ≤ t.endMatch)) :
    validateScheduleConfig e p sh c ≠ [] := by
  intro hnil
  have h6 := (validate_components_nil e p sh c hnil).2.2.2.2.2
  unfold turnCoverageCheck at h6
  split at h6
  · simp at h6
  · split at h6
    · simp at h6
    · next hfind =>
      have hm : m ∈ intRange 1 e.totalMatches :=
        (intRange_mem 1 e.totalMatches m).mpr ⟨h1, h2⟩
      have hp := List.find?_eq_none.mp hfind m hm
      simp only [Bool.not_eq_true', Bool.not_eq_false] at hp
      rw [List.any_eq_true] at hp
      rcases hp with ⟨t, ht, hc⟩
      simp only [turnCovers, Bool.and_eq_true, decide_eq_true_eq] at hc
      exact h3 t ht hc

/-- Witness for `validateScheduleConfig_gap_blocks`: match 2 of a two-match
event is covered by no turn, so validation reports an error. -/
theorem validateScheduleConfig_gap_blocks_witness :
    validateScheduleConfig (sampleEvent 2) (onePersonnel roster6) gapShift
      ⟨none⟩ ≠ [] :=
  validateScheduleConfig_gap_blocks (sampleEvent 2) (onePersonnel roster6) gapShift
    ⟨none⟩ 2 (by decide) (by decide) (by decide)

/-- Witness for `capFeasibility`: with 12 scouters and 10 matches of 6
positions, cap 5 (capacity 60 ≥ 60) yields a successful generation, while
cap 4 (capacity 48 < 60) yields failure with no schedule. -/
theorem capFeasibility_witness :
    (generateSchedule (sampleEvent 10) (onePersonnel roster12) oneTurn10
      ⟨some 5⟩).success = true ∧
    (generateSchedule (sampleEvent 10) (onePersonnel roster12) oneTurn10
        ⟨some 4⟩).success = false ∧
    (generateSchedule (sampleEvent 10) (onePersonnel roster12) oneTurn10
      ⟨some 4⟩).schedule = none := by
  refine ⟨?_, ?_⟩
  · exact (capFeasibility (sampleEvent 10) (onePersonnel roster12) oneTurn10
      ⟨some 5⟩ 5 rfl).2.2 (by decide) (by decide) (by decide) (by decide) (by decide)
      (by decide) (fun m hm1 hm2 => ⟨⟨1, 1, 10⟩, by decide, hm1, hm2⟩)
  · exact (capFeasibility (sampleEvent 10) (onePersonnel roster12) oneTurn10
      ⟨some 4⟩ 4 rfl).2.1 (by decide)

/-! ### Structure of the generation pass -/

theorem assignLoop_length (sorted : List String) (tn mit : Int) (ps : List String) :
    ∀ (acc : List String) (tc : String → Nat) (mc : String → Int),
      (assignLoop sorted tn mit ps acc tc mc).1.length = acc.length + ps.length := by
  induction ps with
  | nil => intro acc tc mc; rfl
  | cons pos rest ih =>
    intro acc tc mc
    rw [assignLoop]
    cases hfind : sorted.find? (fun s => ! acc.contains s) with
    | some s =>
      simp only [ih]
      simp [List.length_append]
      omega
    | none =>
      simp only [ih]
      simp [List.length_append]
      omega

theorem assignLoop_mem (sorted : List String) (tn mit : Int) (ps : List String) :
    ∀ (acc : List String) (tc : String → Nat) (mc : String → Int),
      ∀ x ∈ (assignLoop sorted tn mit ps acc tc mc).1,
        x ∈ acc ∨ x ∈ sorted ∨ x = "" := by
  induction ps with
  | nil => intro acc tc mc x hx; exact Or.inl hx
  | cons pos rest ih =>
    intro acc tc mc x hx
    rw [assignLoop] at hx
    cases hfind : sorted.find? (fun s => ! acc.contains s) with
    | some s =>
      rw [hfind] at hx
      rcases ih (acc ++ [s]) _ _ x hx with h | h | h
      · rcases List.mem_append.mp h with h' | h'
        · exact Or.inl h'
        · rw [List.mem_singleton] at h'
          exact Or.inr (Or.inl (h' ▸ List.mem_of_find?_eq_some hfind))
      · exact Or.inr (Or.inl h)
      · exact Or.inr (Or.inr h)
    | none =>
      rw [hfind] at hx
      rcases ih (acc ++ [""]) _ _ x hx with h | h | h
      · rcases List.mem_append.mp h with h' | h'
        · exact Or.inl h'
        · rw [List.mem_singleton] at h'
          exact Or.inr (Or.inr h')
      · exact Or.inr (Or.inl h)
      · exact Or.inr (Or.inr h)

theorem assignLoop_pairwise (sorted : List String) (tn mit : Int) (ps : List String) :
    ∀ (acc : List String) (tc : String → Nat) (mc : String → Int),
      acc.Pairwise (fun a b => a = b → b = "") →
      (assignLoop sorted tn mit ps acc tc mc).1.Pairwise (fun a b => a = b → b = "") := by
  induction ps with
  | nil => intro acc tc mc hacc; exact hacc
  | cons pos rest ih =>
    intro acc tc mc hacc
    rw [assignLoop]
    cases hfind : sorted.find? (fun s => ! acc.contains s) with
    | some s =>
      apply ih
      rw [List.pairwise_append]
      refine ⟨hacc, List.pairwise_singleton _ _, ?_⟩
      intro a ha b hb
      rw [List.mem_singleton] at hb
      subst hb
      intro hab
      have hs := List.find?_some hfind
      simp at hs
      exact absurd (hab ▸ ha) hs
    | none =>
      apply ih
      rw [List.pairwise_append]
      refine ⟨hacc, List.pairwise_singleton _ _, ?_⟩
      intro a ha b hb
      rw [List.mem_singleton] at hb
      subst hb
      intro hab
      rfl

theorem assignLoop_success (sorted : List String) (tn mit : Int)
    (hnodup : sorted.Nodup) (ps : List String) :
    ∀ (acc : List String) (tc : String → Nat) (mc : String → Int),
      acc.length + ps.length ≤ sorted.length →
      (assignLoop sorted tn mit ps acc tc mc).2.2.2 = [] ∧
      ∀ x ∈ (assignLoop sorted tn mit ps acc tc mc).1, x ∈ acc ∨ x ∈ sorted := by
  induction ps with
  | nil =>
    intro acc tc mc hlen
    exact ⟨rfl, fun x hx => Or.inl hx⟩
  | cons pos rest ih =>
    intro acc tc mc hlen
    rw [assignLoop]
    cases hfind : sorted.find? (fun s => ! acc.contains s) with
    | some s =>
      have hlen' : (acc ++ [s]).length + rest.length ≤ sorted.length := by
        rw [List.length_append]
        simp only [List.length_cons] at hlen
        simp
        omega
      rcases ih (acc ++ [s]) _ _ hlen' with ⟨hw, hmem⟩
      refine ⟨hw, ?_⟩
      intro x hx
      rcases hmem x hx with h | h
      · rcases List.mem_append.mp h with h' | h'
        · exact Or.inl h'
        · rw [List.mem_singleton] at h'
          exact Or.inr (h' ▸ List.mem_of_find?_eq_some hfind)
      · exact Or.inr h
    | none =>
      exfalso
      have hsub : sorted ⊆ acc := by
        intro s hs
        have := List.find?_eq_none.mp hfind s hs
        simp at this
        exact this
      have := (List.subperm_of_subset hnodup hsub).length_le
      simp only [List.length_cons] at hlen
      omega

theorem block_mem (lo hi : Int) (lead cam : String) (asg : List MatchAssignment) :
    ∀ m ∈ (intRange lo hi).map (fun mn =>
        ({ matchNumber := mn, leadScouter := lead, camera := cam,
           assignments := asg } : MatchSchedule)),
      (lo ≤ m.matchNumber ∧ m.matchNumber ≤ hi) ∧
        m.leadScouter = lead ∧ m.camera = cam ∧ m.assignments = asg := by
  intro m hm
  rcases List.mem_map.mp hm with ⟨mn, hmn, rfl⟩
  exact ⟨(intRange_mem lo hi mn).mp hmn, rfl, rfl, rfl⟩

theorem runTurns_mem_range (sc ld cm ps : List String) (ts : List Turn) :
    ∀ (tc : String → Nat) (mc : String → Int) (li ci : Nat),
      ∀ m ∈ (runTurns sc ld cm ps ts tc mc li ci).1,
        ∃ t ∈ ts, t.startMatch ≤ m.matchNumber ∧ m.matchNumber ≤ t.endMatch := by
  induction ts with
  | nil => intro tc mc li ci m hm; exact absurd hm (List.not_mem_nil m)
  | cons t0 ts ih =>
    intro tc mc li ci m hm
    simp only [runTurns, List.mem_append] at hm
    rcases hm with hb | hr
    · rcases (block_mem _ _ _ _ _ m hb).1 with ⟨h1, h2⟩
      exact ⟨t0, List.mem_cons_self t0 ts, h1, h2⟩
    · rcases ih _ _ _ _ m hr with ⟨t, ht, h1, h2⟩
      exact ⟨t, List.mem_cons_of_mem t0 ht, h1, h2⟩

/-- The inclusive match ranges of two turns share no match number. -/
def rangesDisjoint (t1 t2 : Turn) : Prop :=
  ∀ m : Int, ¬(t1.startMatch ≤ m ∧ m ≤ t1.endMatch ∧
    t2.startMatch ≤ m ∧ m ≤ t2.endMatch)

theorem runTurns_sameTurn (sc ld cm ps : List String) (ts : List Turn) :
    ts.Pairwise rangesDisjoint → ∀ t ∈ ts,
      ∀ (tc : String → Nat) (mc : String → Int) (li ci : Nat),
        ∀ m1 ∈ (runTurns sc ld cm ps ts tc mc li ci).1,
        ∀ m2 ∈ (runTurns sc ld cm ps ts tc mc li ci).1,
          t.startMatch ≤ m1.matchNumber → m1.matchNumber ≤ t.endMatch →
          t.startMatch ≤ m2.matchNumber → m2.matchNumber ≤ t.endMatch →
          m1.leadScouter = m2.leadScouter ∧ m1.camera = m2.camera ∧
            m1.assignments = m2.assignments := by
  induction ts with
  | nil => intro _ t ht; exact absurd ht (List.not_mem_nil t)
  | cons t0 ts ih =>
    intro hdisj t ht tc mc li ci m1 hm1 m2 hm2 h1s h1e h2s h2e
    rcases List.pairwise_cons.mp hdisj with ⟨hd0, hdisj'⟩
    simp only [runTurns, List.mem_append] at hm1 hm2
    rcases hm1 with hb1 | hr1 <;> rcases hm2 with hb2 | hr2
    · rcases block_mem _ _ _ _ _ m1 hb1 with ⟨_, hl1, hc1, ha1⟩
      rcases block_mem _ _ _ _ _ m2 hb2 with ⟨_, hl2, hc2, ha2⟩
      exact ⟨hl1.trans hl2.symm, hc1.trans hc2.symm, ha1.trans ha2.symm⟩
    · exfalso
      rcases (block_mem _ _ _ _ _ m1 hb1).1 with ⟨hb1s, hb1e⟩
      rcases runTurns_mem_range sc ld cm ps ts _ _ _ _ m2 hr2 with ⟨u, hu, hus, hue⟩
      rcases List.mem_cons.mp ht with rfl | ht'
      · exact hd0 u hu m2.matchNumber ⟨h2s, h2e, hus, hue⟩
      · exact hd0 t ht' m1.matchNumber ⟨hb1s, hb1e, h1s, h1e⟩
    · exfalso
      rcases (block_mem _ _ _ _ _ m2 hb2).1 with ⟨hb2s, hb2e⟩
      rcases runTurns_mem_range sc ld cm ps ts _ _ _ _ m1 hr1 with ⟨u, hu, hus, hue⟩
      rcases List.mem_cons.mp ht with rfl | ht'
      · exact hd0 u hu m1.matchNumber ⟨h1s, h1e, hus, hue⟩
      · exact hd0 t ht' m2.matchNumber ⟨hb2s, hb2e, h2s, h2e⟩
    · rcases List.mem_cons.mp ht with rfl | ht'
      · exfalso
        rcases runTurns_mem_range sc ld cm ps ts _ _ _ _ m1 hr1 with ⟨u, hu, hus, hue⟩
        exact hd0 u hu m1.matchNumber ⟨h1s, h1e, hus, hue⟩
      · exact ih hdisj' t ht' _ _ _ _ m1 hr1 m2 hr2 h1s h1e h2s h2e

theorem zipWith_mk_scouter_mem (ps ss : List String) :
    ∀ x ∈ List.zipWith (fun p s => (⟨p, s, none⟩ : MatchAssignment)) ps ss,
      x.scouter ∈ ss := by
  induction ps generalizing ss with
  | nil => intro x hx; exact absurd hx (List.not_mem_nil x)
  | cons p ps ih =>
    intro x hx
    cases ss with
    | nil => exact absurd hx (List.not_mem_nil x)
    | cons s ss =>
      rcases List.mem_cons.mp hx with rfl | hx'
      · exact List.mem_cons_self _ _
      · exact List.mem_cons_of_mem _ (ih ss x hx')

theorem zipWith_mk_pairwise (R : String → String → Prop) (ps : List String) :
    ∀ ss : List String, ss.Pairwise R →
      (List.zipWith (fun p s => (⟨p, s, none⟩ : MatchAssignment)) ps ss).Pairwise
        (fun x y => R x.scouter y.scouter) := by
  induction ps with
  | nil => intro ss _; exact List.Pairwise.nil
  | cons p ps ih =>
    intro ss h
    cases ss with
    | nil => exact List.Pairwise.nil
    | cons s ss =>
      rcases List.pairwise_cons.mp h with ⟨hs, h'⟩
      refine List.pairwise_cons.mpr ⟨?_, ih ss h'⟩
      intro y hy
      exact hs y.scouter (zipWith_mk_scouter_mem ps ss y hy)

theorem runTurns_pairwise (sc ld cm ps : List String) (ts : List Turn) :
    ∀ (tc : String → Nat) (mc : String → Int) (li ci : Nat),
      ∀ m ∈ (runTurns sc ld cm ps ts tc mc li ci).1,
        m.assignments.Pairwise (fun a b => a.scouter = b.scouter → b.scouter = "") := by
  induction ts with
  | nil => intro tc mc li ci m hm; exact absurd hm (List.not_mem_nil m)
  | cons t0 ts ih =>
    intro tc mc li ci m hm
    simp only [runTurns, List.mem_append] at hm
    rcases hm with hb | hr
    · rcases block_mem _ _ _ _ _ m hb with ⟨_, _, _, ha⟩
      rw [ha]
      exact zipWith_mk_pairwise (fun a b => a = b → b = "") ps _
        (assignLoop_pairwise _ _ _ ps [] tc mc List.Pairwise.nil)
    · exact ih _ _ _ _ m hr

theorem runTurns_clean (sc ld cm ps : List String) (hnodup : sc.Nodup)
    (hlen : ps.length ≤ sc.length) (ts : List Turn) :
    ∀ (tc : String → Nat) (mc : String → Int) (li ci : Nat),
      (runTurns sc ld cm ps ts tc mc li ci).2.1 = [] ∧
      ∀ m ∈ (runTurns sc ld cm ps ts tc mc li ci).1,
        ∀ a ∈ m.assignments, a.scouter ∈ sc := by
  induction ts with
  | nil =>
    intro tc mc li ci
    exact ⟨rfl, fun m hm => absurd hm (List.not_mem_nil m)⟩
  | cons t0 ts ih =>
    intro tc mc li ci
    have hperm := jsSort_perm (fun a b => decide (tc a ≤ tc b)) sc
    have hnodup' : (jsSort (fun a b => decide (tc a ≤ tc b)) sc).Nodup :=
      hperm.nodup_iff.mpr hnodup
    have hlen' : ([] : List String).length + ps.length ≤
        (jsSort (fun a b => decide (tc a ≤ tc b)) sc).length := by
      rw [hperm.length_eq]
      simpa using hlen
    rcases assignLoop_success _ t0.turn (t0.endMatch - t0.startMatch + 1) hnodup'
      ps [] tc mc hlen' with ⟨hw, hmem⟩
    constructor
    · show (assignLoop _ t0.turn (t0.endMatch - t0.startMatch + 1) ps [] tc mc).2.2.2 ++
        (runTurns sc ld cm ps ts _ _ (li + 1) (ci + 1)).2.1 = []
      rw [hw, List.nil_append]
      exact (ih _ _ _ _).1
    · intro m hm a ha
      simp only [runTurns, List.mem_append] at hm
      rcases hm with hb | hr
      · rcases block_mem _ _ _ _ _ m hb with ⟨_, _, _, hassign⟩
        rw [hassign] at ha
        have := zipWith_mk_scouter_mem ps _ a ha
        rcases hmem a.scouter this with h | h
        · exact absurd h (List.not_mem_nil _)
        · exact hperm.mem_iff.mp h
      · exact (ih _ _ _ _).2 m hr a ha

theorem generateScheduleSuccess_schedule (e : EventConfig) (p : Personnel)
    (sh : ShiftConfig) (w : List ScheduleValidationError) :
    (generateScheduleSuccess e p sh w).schedule =
      some ⟨e, p, sh, (genResult e p sh).1⟩ := rfl

theorem generateSchedule_schedule_some (e : EventConfig) (p : Personnel)
    (sh : ShiftConfig) (c : ScheduleConstraints) (gs : GeneratedSchedule)
    (h : (generateSchedule e p sh c).schedule = some gs) :
    gs = ⟨e, p, sh, (genResult e p sh).1⟩ ∧ validateScheduleConfig e p sh c = [] := by
  by_cases hv : validateScheduleConfig e p sh c = []
  · rw [generateSchedule_eq_of_valid e p sh c hv, generateScheduleSuccess_schedule] at h
    exact ⟨(Option.some_injective _ h).symm, hv⟩
  · rw [(generateSchedule_of_invalid e p sh c hv).2] at h
    exact absurd h (by simp)

/-- Default match record used with `List.getD` in concrete statements. -/
def defaultMatch : MatchSchedule := ⟨0, "", "", []⟩

/-- Personnel with two lead scouters and twelve scouters. -/
def twoLeadPersonnel : Personnel :=
  { leadScouters := ["L1", "L2"], scouters := roster12, cameras := ["C1"] }

/-- The schedule generated for the overlapping-turn configuration (two turns,
both spanning matches 1-2, twelve scouters). -/
def overlapGs : GeneratedSchedule :=
  (generateSchedule (sampleEvent 2) twoLeadPersonnel overlapShift ⟨none⟩).schedule.getD
    ⟨sampleEvent 2, twoLeadPersonnel, overlapShift, []⟩

/-- C3 counterexample: in the schedule generated for two overlapping turns,
two schedule entries whose match numbers both lie in turn 1's range `[1, 2]`
(indeed both are match 1) carry different lead scouters (and different
scouters), so matches inside one turn's range are not identical up to match
number. -/
theorem sameTurn_assignments_cex :
    (generateSchedule (sampleEvent 2) twoLeadPersonnel overlapShift
        ⟨none⟩).schedule = some overlapGs ∧
    (⟨1, 1, 2⟩ : Turn) ∈ overlapGs.shifts.turns ∧
    overlapGs.schedule.length = 4 ∧
    (overlapGs.schedule.getD 0 defaultMatch) ∈ overlapGs.schedule ∧
    (overlapGs.schedule.getD 2 defaultMatch) ∈ overlapGs.schedule ∧
    (overlapGs.schedule.getD 0 defaultMatch).matchNumber = 1 ∧
    (overlapGs.schedule.getD 2 defaultMatch).matchNumber = 1 ∧
    (⟨1, 1, 2⟩ : Turn).startMatch ≤ 1 ∧ (1 : Int) ≤ (⟨1, 1, 2⟩ : Turn).endMatch ∧
    (overlapGs.schedule.getD 0 defaultMatch).leadScouter ≠
      (overlapGs.schedule.getD 2 defaultMatch).leadScouter ∧
    (overlapGs.schedule.getD 0 defaultMatch).assignments ≠
      (overlapGs.schedule.getD 2 defaultMatch).assignments := by
  refine ⟨by decide, by decide, by decide, by decide, by decide, by decide, by decide,
    by decide, by decide, by decide, by decide⟩

/-- C3 (amended): when the configured turn ranges are pairwise disjoint (as
they are for any exact partition), any two matches of a generated schedule
whose numbers lie within one turn's `[startMatch, endMatch]` range are
identical up to match number: same lead scouter, same camera, and the same
assignment list (hence the same scouter for each position label). -/
theorem sameTurn_assignments (e : EventConfig) (p : Personnel) (sh : ShiftConfig)
    (c : ScheduleConstraints) (hdisj : sh.turns.Pairwise rangesDisjoint)
    (gs : GeneratedSchedule) (hgs : (generateSchedule e p sh c).schedule = some gs)
    (t : Turn) (ht : t ∈ gs.shifts.turns)
    (m1 : MatchSchedule) (hm1 : m1 ∈ gs.schedule)
    (m2 : MatchSchedule) (hm2 : m2 ∈ gs.schedule)
    (hr1 : t.startMatch ≤ m1.matchNumber ∧ m1.matchNumber ≤ t.endMatch)
    (hr2 : t.startMatch ≤ m2.matchNumber ∧ m2.matchNumber ≤ t.endMatch) :
    m1.leadScouter = m2.leadScouter ∧ m1.camera = m2.camera ∧
      m1.assignments = m2.assignments := by
  rcases generateSchedule_schedule_some e p sh c gs hgs with ⟨rfl, _⟩
  exact runTurns_sameTurn p.scouters p.leadScouters p.cameras (getPositions e)
    sh.turns hdisj t ht _ _ _ _ m1 hm1 m2 hm2 hr1.1 hr1.2 hr2.1 hr2.2

/-- The schedule generated for the single-turn twelve-scouter configuration. -/
def oneTurnGs : GeneratedSchedule :=
  (generateSchedule (sampleEvent 10) (onePersonnel roster12) oneTurn10
    ⟨none⟩).schedule.getD ⟨sampleEvent 10, onePersonnel roster12, oneTurn10, []⟩

/-- Witness for `sameTurn_assignments`: with the single turn `[1, 10]`,
entries 0 and 5 of the generated schedule agree on lead scouter, camera and
assignments. -/
theorem sameTurn_assignments_witness :
    (oneTurnGs.schedule.getD 0 defaultMatch).leadScouter =
        (oneTurnGs.schedule.getD 5 defaultMatch).leadScouter ∧
      (oneTurnGs.schedule.getD 0 defaultMatch).camera =
        (oneTurnGs.schedule.getD 5 defaultMatch).camera ∧
      (oneTurnGs.schedule.getD 0 defaultMatch).assignments =
        (oneTurnGs.schedule.getD 5 defaultMatch).assignments :=
  sameTurn_assignments (sampleEvent 10) (onePersonnel roster12) oneTurn10 ⟨none⟩
    (by simp [oneTurn10]) oneTurnGs (by decide) ⟨1, 1, 10⟩ (by decide)
    (oneTurnGs.schedule.getD 0 defaultMatch) (by decide)
    (oneTurnGs.schedule.getD 5 defaultMatch) (by decide)
    ⟨by decide, by decide⟩ ⟨by decide, by decide⟩

/-- C10: in every match of a schedule produced by `generateSchedule`, no
scouter covers two positions — any two assignments sharing a scouter string
share the empty one. -/
theorem match_assignments_distinct (e : EventConfig) (p : Personnel)
    (sh : ShiftConfig) (c : ScheduleConstraints) (gs : GeneratedSchedule)
    (hgs : (generateSchedule e p sh c).schedule = some gs) :
    ∀ m ∈ gs.schedule,
      m.assignments.Pairwise (fun a b => a.scouter = b.scouter → b.scouter = "") := by
  rcases generateSchedule_schedule_some e p sh c gs hgs with ⟨rfl, _⟩
  exact runTurns_pairwise p.scouters p.leadScouters p.cameras (getPositions e)
    sh.turns _ _ _ _

/-- Witness for `match_assignments_distinct` on the single-turn schedule. -/
theorem match_assignments_distinct_witness :
    (oneTurnGs.schedule.getD 0 defaultMatch).assignments.Pairwise
      (fun a b => a.scouter = b.scouter → b.scouter = "") :=
  match_assignments_distinct (sampleEvent 10) (onePersonnel roster12) oneTurn10
    ⟨none⟩ oneTurnGs (by decide) (oneTurnGs.schedule.getD 0 defaultMatch) (by decide)

theorem emptyNamesCheck_nil_names (l : List String) (h : emptyNamesCheck l = []) :
    ∀ s ∈ l, s ≠ "" := by
  intro s hs hse
  unfold emptyNamesCheck at h
  have hany : l.any (fun s => jsTrim s = "") = true := by
    rw [List.any_eq_true]
    refine ⟨s, hs, ?_⟩
    subst hse
    decide
  rw [if_pos hany] at h
  exact absurd h (by simp)

theorem balanceCheck_message (t : Int) (n : Nat) (cs : List Int) :
    ∀ w ∈ balanceCheck t n cs, w.message = "Uneven workload distribution" := by
  intro w hw
  rcases cs with _ | ⟨c0, cs⟩
  · exact absurd hw (List.not_mem_nil w)
  · rw [balanceCheck] at hw
    split at hw
    · rw [List.mem_singleton] at hw; subst hw; rfl
    · exact absurd hw (List.not_mem_nil w)

theorem unassignedLabels_nil (ms : List MatchSchedule)
    (hne : ∀ m ∈ ms, ∀ a ∈ m.assignments, a.scouter ≠ "") :
    unassignedLabels ms = [] := by
  rw [unassignedLabels, List.eq_nil_iff_forall_not_mem]
  intro y hy
  rw [List.mem_flatMap] at hy
  rcases hy with ⟨m, hm, hy⟩
  rw [List.mem_map] at hy
  rcases hy with ⟨a, ha, _⟩
  rw [List.mem_filter] at ha
  have := hne m hm a ha.1
  rw [decide_eq_true_eq] at ha
  exact this ha.2

theorem unassignedWarning_nil : unassignedWarning [] = [] := rfl

theorem generateScheduleSuccess_warnings (e : EventConfig) (p : Personnel)
    (sh : ShiftConfig) (w : List ScheduleValidationError) :
    (generateScheduleSuccess e p sh w).warnings =
      w ++ (genResult e p sh).2.1
        ++ unassignedWarning (unassignedLabels (genResult e p sh).1)
        ++ balanceCheck e.totalMatches p.scouters.length
          ((dedupFirst p.scouters).map (genResult e p sh).2.2) := rfl

/-- C7 (amended): with a roster of exactly `positionsPerMatch` pairwise
distinct scouters, no max-match cap, and a configuration that passes
validation, generation succeeds, every assignment of every match carries a
non-empty scouter name, and no unfillable-slot warning is emitted (the only
possible warning is the workload-imbalance one). -/
theorem exactRoster_generation (e : EventConfig) (p : Personnel) (sh : ShiftConfig)
    (cons : ScheduleConstraints)
    (hlen : p.scouters.length = (getPositions e).length)
    (hnodup : p.scouters.Nodup)
    (hcap : cons.maxMatchesPerScouter = none)
    (hv : validateScheduleConfig e p sh cons = []) :
    (generateSchedule e p sh cons).success = true ∧
    (∀ w ∈ (generateSchedule e p sh cons).warnings,
      w.message = "Uneven workload distribution") ∧
    ∀ gs, (generateSchedule e p sh cons).schedule = some gs →
      ∀ m ∈ gs.schedule, ∀ a ∈ m.assignments, a.scouter ≠ "" := by
  have hclean := runTurns_clean p.scouters p.leadScouters p.cameras (getPositions e)
    hnodup (le_of_eq hlen.symm) sh.turns (fun _ => 0) (fun _ => 0) 0 0
  have hnames := emptyNamesCheck_nil_names p.scouters
    (validate_components_nil e p sh cons hv).2.1
  have hgw : (genResult e p sh).2.1 = [] := hclean.1
  have hne : ∀ m ∈ (genResult e p sh).1, ∀ a ∈ m.assignments, a.scouter ≠ "" := by
    intro m hm a ha
    exact hnames a.scouter (hclean.2 m hm a ha)
  refine ⟨(generateSchedule_success_iff e p sh cons).mpr hv, ?_, ?_⟩
  · rw [generateSchedule_eq_of_valid e p sh cons hv, generateScheduleSuccess_warnings,
      hgw, unassignedLabels_nil _ hne, unassignedWarning_nil]
    intro w hw
    simp only [List.nil_append, List.append_nil] at hw
    exact balanceCheck_message _ _ _ w hw
  · intro gs hgs m hm a ha
    rcases generateSchedule_schedule_some e p sh cons gs hgs with ⟨rfl, _⟩
    exact hne m hm a ha

/-- Personnel whose six-name roster contains duplicate names. -/
def dupPersonnel : Personnel :=
  { leadScouters := ["L1"], scouters := ["A", "A", "B", "B", "C", "D"], cameras := ["C1"] }

/-- A single turn covering matches 1 through 2. -/
def twoMatchOneTurn : ShiftConfig := { breakPoints := [], turns := [⟨1, 1, 2⟩] }

/-- C7 counterexample: a roster of exactly `positionsPerMatch = 6` scouters
with duplicate names passes validation with no cap, yet generation emits
unfillable-slot warnings and leaves assignments with an empty scouter — the
fallback branch is reachable. -/
theorem exactRoster_generation_cex :
    dupPersonnel.scouters.length = (getPositions (sampleEvent 2)).length ∧
    (⟨none⟩ : ScheduleConstraints).maxMatchesPerScouter = none ∧
    validateScheduleConfig (sampleEvent 2) dupPersonnel twoMatchOneTurn ⟨none⟩ = [] ∧
    (generateSchedule (sampleEvent 2) dupPersonnel twoMatchOneTurn ⟨none⟩).success
      = true ∧
    (⟨.warning, "No available scouter for Turn 1, R 2",
        some "Not enough scouters to cover all positions."⟩ : ScheduleValidationError)
      ∈ (generateSchedule (sampleEvent 2) dupPersonnel twoMatchOneTurn
          ⟨none⟩).warnings ∧
    ((generateSchedule (sampleEvent 2) dupPersonnel twoMatchOneTurn
        ⟨none⟩).schedule.map (fun gs =>
      ((gs.schedule.getD 0 defaultMatch).assignments.getD 4
        ⟨"", "", none⟩).scouter)) = some "" := by
  refine ⟨by decide, rfl, by decide, by decide, by decide, by decide⟩

/-- Witness for `exactRoster_generation`: six distinct scouters, six
positions, two matches in one turn — success, only balance-type warnings,
and a fully assigned schedule. -/
theorem exactRoster_generation_witness :
    (generateSchedule (sampleEvent 2) (onePersonnel roster6) twoMatchOneTurn
      ⟨none⟩).success = true := by
  have h := exactRoster_generation (sampleEvent 2) (onePersonnel roster6)
    twoMatchOneTurn ⟨none⟩ (by decide) (by decide) rfl (by decide)
  exact h.1

/-! ### The turn-boundary query -/

theorem mem_of_getLast?_eq_some {α : Type} {l : List α} {a : α}
    (h : l.getLast? = some a) : a ∈ l := by
  rcases List.getLast?_eq_some_iff.mp h with ⟨ys, rfl⟩
  simp

/-- The inclusive match ranges of two per-scouter turn assignments share no
match number. -/
def taDisjoint (t1 t2 : ScouterTurnAssignment) : Prop :=
  ∀ m : Int, ¬(t1.startMatch ≤ m ∧ m ≤ t1.endMatch ∧
    t2.startMatch ≤ m ∧ m ≤ t2.endMatch)

theorem pairwise_filterMap_of {α β : Type} (f : α → Option β)
    (R : α → α → Prop) (S : β → β → Prop)
    (hRS : ∀ a b, R a b → ∀ c, f a = some c → ∀ d, f b = some d → S c d) :
    ∀ l : List α, l.Pairwise R → (l.filterMap f).Pairwise S := by
  intro l hl
  induction l with
  | nil => exact List.Pairwise.nil
  | cons x xs ih =>
    rcases List.pairwise_cons.mp hl with ⟨hx, hxs⟩
    rw [List.filterMap_cons]
    cases hfx : f x with
    | none => exact ih hxs
    | some c =>
      refine List.pairwise_cons.mpr ⟨?_, ih hxs⟩
      intro d hd
      rcases List.mem_filterMap.mp hd with ⟨a, ha, hfa⟩
      exact hRS x a (hx a ha) c hfx d hfa

theorem getScouterAssignments_src (gs : GeneratedSchedule) (name : String) :
    ∀ ta ∈ getScouterAssignments gs name,
      ∃ t ∈ gs.shifts.turns, ta.turn = t.turn ∧ ta.startMatch = t.startMatch ∧
        ta.endMatch = t.endMatch ∧ ta.assignments = scouterAssignsInTurn gs name t := by
  intro ta hta
  rcases List.mem_filterMap.mp hta with ⟨t, ht, hsome⟩
  refine ⟨t, ht, ?_⟩
  by_cases he : (scouterAssignsInTurn gs name t).isEmpty
  · rw [if_pos he] at hsome
    exact absurd hsome (by simp)
  · rw [if_neg he] at hsome
    have := Option.some_injective _ hsome
    subst this
    exact ⟨rfl, rfl, rfl, rfl⟩

theorem scouterAssignsInTurn_range (gs : GeneratedSchedule) (name : String) (t : Turn) :
    ∀ a ∈ scouterAssignsInTurn gs name t,
      t.startMatch ≤ a.matchNumber ∧ a.matchNumber ≤ t.endMatch := by
  intro a ha
  rcases List.mem_filterMap.mp ha with ⟨m, hm, hsome⟩
  rcases Option.map_eq_some'.mp hsome with ⟨x, _, hx⟩
  rw [List.mem_filter] at hm
  have hcov := hm.2
  simp only [turnCovers, Bool.and_eq_true, decide_eq_true_eq] at hcov
  rw [← hx]
  exact hcov

theorem getScouterAssignments_pairwise (gs : GeneratedSchedule) (name : String)
    (hdisj : gs.shifts.turns.Pairwise rangesDisjoint) :
    (getScouterAssignments gs name).Pairwise taDisjoint := by
  apply pairwise_filterMap_of _ rangesDisjoint taDisjoint _ gs.shifts.turns hdisj
  intro a b hab c hc d hd
  have hca : c.startMatch = a.startMatch ∧ c.endMatch = a.endMatch := by
    by_cases he : (scouterAssignsInTurn gs name a).isEmpty
    · rw [if_pos he] at hc; exact absurd hc (by simp)
    · rw [if_neg he] at hc
      have := Option.some_injective _ hc
      subst this
      exact ⟨rfl, rfl⟩
  have hdb : d.startMatch = b.startMatch ∧ d.endMatch = b.endMatch := by
    by_cases he : (scouterAssignsInTurn gs name b).isEmpty
    · rw [if_pos he] at hd; exact absurd hd (by simp)
    · rw [if_neg he] at hd
      have := Option.some_injective _ hd
      subst this
      exact ⟨rfl, rfl⟩
  intro m hm
  rw [hca.1, hca.2, hdb.1, hdb.2] at hm
  exact hab m hm

/-- The predicate scanned by `isLastMatchOfTurn`. -/
def lastMatchPred (matchNumber : Int) (ta : ScouterTurnAssignment) : Bool :=
  match ta.assignments.getLast? with
  | some la => decide (la.matchNumber = matchNumber)
  | none => false

theorem isLastMatchOfTurn_eq_find (gs : GeneratedSchedule) (matchNumber : Int)
    (name : String) :
    isLastMatchOfTurn gs matchNumber name =
      match (getScouterAssignments gs name).find? (lastMatchPred matchNumber) with
      | some ta => ⟨true, some ta.turn⟩
      | none => ⟨false, none⟩ := rfl

theorem lastEntry_in_range (gs : GeneratedSchedule) (name : String) :
    ∀ ta ∈ getScouterAssignments gs name, ∀ la,
      ta.assignments.getLast? = some la →
      ta.startMatch ≤ la.matchNumber ∧ la.matchNumber ≤ ta.endMatch := by
  intro ta hta la hla
  rcases getScouterAssignments_src gs name ta hta with ⟨t, _, _, h2, h3, h4⟩
  have hmem : la ∈ ta.assignments := mem_of_getLast?_eq_some hla
  rw [h4] at hmem
  have := scouterAssignsInTurn_range gs name t la hmem
  rw [h2, h3]
  exact this

theorem find_last_unique (M : Int) (L : List ScouterTurnAssignment)
    (hrange : ∀ ta ∈ L, lastMatchPred M ta = true →
      ta.startMatch ≤ M ∧ M ≤ ta.endMatch)
    (hdisj : L.Pairwise taDisjoint)
    (ta : ScouterTurnAssignment) (hta : ta ∈ L) (hP : lastMatchPred M ta = true)
    (hM : ta.startMatch ≤ M ∧ M ≤ ta.endMatch) :
    L.find? (lastMatchPred M) = some ta := by
  induction L with
  | nil => exact absurd hta (List.not_mem_nil ta)
  | cons h rest ih =>
    rcases List.pairwise_cons.mp hdisj with ⟨hd, hdisj'⟩
    rcases List.mem_cons.mp hta with rfl | hta'
    · exact List.find?_cons_of_pos rest hP
    · by_cases hPh : lastMatchPred M h = true
      · exfalso
        have hhr := hrange h (List.mem_cons_self h rest) hPh
        exact hd ta hta' M ⟨hhr.1, hhr.2, hM.1, hM.2⟩
      · rw [List.find?_cons_of_neg rest hPh]
        exact ih (fun ta' h' hp => hrange ta' (List.mem_cons_of_mem _ h') hp)
          hdisj' hta'

theorem taDisjoint_symm : Symmetric taDisjoint := by
  intro t1 t2 h m hm
  exact h m ⟨hm.2.2.1, hm.2.2.2, hm.1, hm.2.1⟩

/-- C9 (amended): for a schedule whose configured turn ranges are pairwise
disjoint, for every turn in which a scouter appears: `isLastMatchOfTurn` at
the last match number of the scouter's assignments in that turn returns
`(true, that turn's number)`, and at the match number of any other (earlier)
assignment of that turn it returns `(false, none)`. -/
theorem lastMatchOfTurn_boundary (gs : GeneratedSchedule) (name : String)
    (hdisj : gs.shifts.turns.Pairwise rangesDisjoint)
    (ta : ScouterTurnAssignment) (hta : ta ∈ getScouterAssignments gs name)
    (la : ScouterMatchAssignment) (hlast : ta.assignments.getLast? = some la) :
    isLastMatchOfTurn gs la.matchNumber name =
      ⟨true, some ta.turn⟩ ∧
    ∀ a ∈ ta.assignments, a.matchNumber ≠ la.matchNumber →
      isLastMatchOfTurn gs a.matchNumber name = ⟨false, none⟩ := by
  have hpair := getScouterAssignments_pairwise gs name hdisj
  constructor
  · have hP : lastMatchPred la.matchNumber ta = true := by
      unfold lastMatchPred
      rw [hlast]
      simp
    have hfind := find_last_unique la.matchNumber (getScouterAssignments gs name)
      (fun ta' h' hp => by
        unfold lastMatchPred at hp
        rcases hgl : ta'.assignments.getLast? with _ | la'
        · rw [hgl] at hp; exact absurd hp (by simp)
        · rw [hgl] at hp
          rw [decide_eq_true_eq] at hp
          have := lastEntry_in_range gs name ta' h' la' hgl
          rw [hp] at this
          exact this)
      hpair ta hta hP (lastEntry_in_range gs name ta hta la hlast)
    rw [isLastMatchOfTurn_eq_find, hfind]
  · intro a ha hne
    have hfind : (getScouterAssignments gs name).find?
        (lastMatchPred a.matchNumber) = none := by
      rw [List.find?_eq_none]
      intro ta' hta' hp
      unfold lastMatchPred at hp
      rcases hgl : ta'.assignments.getLast? with _ | la'
      · rw [hgl] at hp; exact absurd hp (by simp)
      · rw [hgl] at hp
        rw [decide_eq_true_eq] at hp
        have hrange' := lastEntry_in_range gs name ta' hta' la' hgl
        rw [hp] at hrange'
        -- a.matchNumber lies in ta's range
        have hsrc := getScouterAssignments_src gs name ta hta
        rcases hsrc with ⟨t, _, _, h2, h3, h4⟩
        have hamem : a ∈ scouterAssignsInTurn gs name t := h4 ▸ ha
        have hrange := scouterAssignsInTurn_range gs name t a hamem
        rw [← h2, ← h3] at hrange
        by_cases hee : ta' = ta
        · subst hee
          rw [hlast] at hgl
          have := Option.some_injective _ hgl
          subst this
          exact hne hp.symm
        · exact (List.Pairwise.forall taDisjoint_symm hpair hta' hta hee)
            a.matchNumber ⟨hrange'.1, hrange'.2, hrange.1, hrange.2⟩
    rw [isLastMatchOfTurn_eq_find, hfind]

/-- Two overlapping turns that share their final match 10. -/
def overlapEndShift : ShiftConfig :=
  { breakPoints := [], turns := [⟨1, 1, 10⟩, ⟨2, 5, 10⟩] }

/-- The schedule generated for the shared-final-match overlapping turns. -/
def overlapEndGs : GeneratedSchedule :=
  (generateSchedule (sampleEvent 10) (onePersonnel roster6) overlapEndShift
    ⟨none⟩).schedule.getD ⟨sampleEvent 10, onePersonnel roster6, overlapEndShift, []⟩

/-- Default per-scouter turn assignment used with `List.getD`. -/
def defaultTa : ScouterTurnAssignment := ⟨0, 0, 0, []⟩

/-- C9 counterexample: with overlapping turns 1 (matches 1-10) and 2 (matches
5-10), scouter `"S01"` is assigned in turn 2 and the last match number of
their turn-2 assignments is 10, but `isLastMatchOfTurn` at match 10 returns
turn number 1 (the first turn whose last entry matches), not 2. -/
theorem lastMatchOfTurn_boundary_cex :
    (generateSchedule (sampleEvent 10) (onePersonnel roster6) overlapEndShift
        ⟨none⟩).schedule = some overlapEndGs ∧
    (⟨2, 5, 10⟩ : Turn) ∈ overlapEndGs.shifts.turns ∧
    ((getScouterAssignments overlapEndGs "S01").getD 1 defaultTa).turn = 2 ∧
    (((getScouterAssignments overlapEndGs "S01").getD 1 defaultTa).assignments.getLast?.map
      (fun a => a.matchNumber)) = some 10 ∧
    isLastMatchOfTurn overlapEndGs 10 "S01" = ⟨true, some 1⟩ ∧
    (⟨true, some 1⟩ : LastMatchResult) ≠ ⟨true, some 2⟩ := by
  refine ⟨by decide, by decide, by decide, by decide, by decide, by decide⟩

/-- Default per-match entry of a scouter's turn assignment. -/
def defaultSma : ScouterMatchAssignment := ⟨0, "", none, ""⟩

/-- Witness for `lastMatchOfTurn_boundary` on the single-turn schedule: for
scouter `"S01"`, the last match of turn 1 is detected as `(true, 1)`. -/
theorem lastMatchOfTurn_boundary_witness :
    isLastMatchOfTurn oneTurnGs
        ((((getScouterAssignments oneTurnGs "S01").getD 0
          defaultTa).assignments.getLast?.getD defaultSma).matchNumber) "S01" =
      ⟨true, some ((getScouterAssignments oneTurnGs "S01").getD 0 defaultTa).turn⟩ :=
  (lastMatchOfTurn_boundary oneTurnGs "S01"
    (by
      have h : oneTurnGs.shifts.turns = [(⟨1, 1, 10⟩ : Turn)] := by decide
      rw [h]
      simp)
    ((getScouterAssignments oneTurnGs "S01").getD 0 defaultTa) (by decide)
    (((getScouterAssignments oneTurnGs "S01").getD 0
      defaultTa).assignments.getLast?.getD defaultSma) (by decide)).1

/-! ### The JSON shape of a GeneratedSchedule -/

/-- JSON value trees, the common language of `JSON.stringify` and
`JSON.parse`.  The serialization to text and back is the JS builtin pair,
which is the identity on these trees (all numbers here are integers), so the
export/import pipeline is modelled at this level. -/
inductive Json where
  | null : Json
  | bool : Bool → Json
  | num : Int → Json
  | str : String → Json
  | arr : List Json → Json
  | obj : List (String × Json) → Json

/-- Property access `parsed.k` on a parsed JSON value. -/
def jsonField (j : Json) (k : String) : Option Json :=
  match j with
  | .obj fs => (fs.find? (fun f => f.1 = k)).map (fun f => f.2)
  | _ => none

/-- JS truthiness of a property-access result (`undefined`, `null`, `0`, `''`
and `false` are falsy; objects and arrays are truthy). -/
def truthy : Option Json → Bool
  | none => false
  | some .null => false
  | some (.bool b) => b
  | some (.num n) => decide (n ≠ 0)
  | some (.str s) => decide (s ≠ "")
  | some (.arr _) => true
  | some (.obj _) => true

/-- JSON encoding of `EventConfig`, with fields in declaration order as
`JSON.stringify` emits them. -/
def encodeEventConfig (e : EventConfig) : Json :=
  .obj [("localLabel", .str e.localLabel), ("tbaLabel", .str e.tbaLabel),
        ("amountOfTeams", .num e.amountOfTeams),
        ("matchesPerTeam", .num e.matchesPerTeam),
        ("totalMatches", .num e.totalMatches),
        ("teamsPerMatch", .num e.teamsPerMatch),
        ("allianceBlue", .str e.allianceBlue), ("allianceRed", .str e.allianceRed)]

/-- JSON encoding of `Personnel`. -/
def encodePersonnel (p : Personnel) : Json :=
  .obj [("leadScouters", .arr (p.leadScouters.map Json.str)),
        ("scouters", .arr (p.scouters.map Json.str)),
        ("cameras", .arr (p.cameras.map Json.str))]

/-- JSON encoding of `Turn`. -/
def encodeTurn (t : Turn) : Json :=
  .obj [("turn", .num t.turn), ("startMatch", .num t.startMatch),
        ("endMatch", .num t.endMatch)]

/-- JSON encoding of `ShiftConfig`. -/
def encodeShiftConfig (sh : ShiftConfig) : Json :=
  .obj [("breakPoints", .arr (sh.breakPoints.map Json.num)),
        ("turns", .arr (sh.turns.map encodeTurn))]

/-- JSON encoding of a nullable team number. -/
def encodeOptInt : Option Int → Json
  | none => .null
  | some n => .num n

/-- JSON encoding of `MatchAssignment`. -/
def encodeMatchAssignment (a : MatchAssignment) : Json :=
  .obj [("position", .str a.position), ("scouter", .str a.scouter),
        ("teamNumber", encodeOptInt a.teamNumber)]

/-- JSON encoding of `MatchSchedule`. -/
def encodeMatchSchedule (m : MatchSchedule) : Json :=
  .obj [("matchNumber", .num m.matchNumber), ("leadScouter", .str m.leadScouter),
        ("camera", .str m.camera),
        ("assignments", .arr (m.assignments.map encodeMatchAssignment))]

/-- Embedding of `exportFullSchedule` at the JSON-value level:
`JSON.stringify(generatedSchedule, null, 2)` serializes exactly this tree. -/
def exportFullSchedule (gs : GeneratedSchedule) : Json :=
  .obj [("event", encodeEventConfig gs.event),
        ("personnel", encodePersonnel gs.personnel),
        ("shifts", encodeShiftConfig gs.shifts),
        ("schedule", .arr (gs.schedule.map encodeMatchSchedule))]

/-- The string view a typed read of a parsed JSON value assumes. -/
def asStr : Json → Option String
  | .str s => some s
  | _ => none

/-- The number view a typed read of a parsed JSON value assumes. -/
def asInt : Json → Option Int
  | .num n => some n
  | _ => none

/-- The array view a typed read of a parsed JSON value assumes. -/
def asArr : Json → Option (List Json)
  | .arr l => some l
  | _ => none

/-- Decode every element of a JSON array. -/
def decodeList {α : Type} (f : Json → Option α) : List Json → Option (List α)
  | [] => some []
  | j :: js => do
    let a ← f j
    let rest ← decodeList f js
    pure (a :: rest)

/-- Decode a JSON array of strings. -/
def decodeStrings (j : Json) : Option (List String) :=
  match j with
  | .arr l => decodeList asStr l
  | _ => none

/-- Decode a JSON array of numbers. -/
def decodeInts (j : Json) : Option (List Int) :=
  match j with
  | .arr l => decodeList asInt l
  | _ => none

/-- The `EventConfig` view of a parsed JSON value (the unchecked
`as GeneratedSchedule` cast, made explicit field by field). -/
def decodeEventConfig (j : Json) : Option EventConfig := do
  let localLabel ← asStr (← jsonField j "localLabel")
  let tbaLabel ← asStr (← jsonField j "tbaLabel")
  let amountOfTeams ← asInt (← jsonField j "amountOfTeams")
  let matchesPerTeam ← asInt (← jsonField j "matchesPerTeam")
  let totalMatches ← asInt (← jsonField j "totalMatches")
  let teamsPerMatch ← asInt (← jsonField j "teamsPerMatch")
  let allianceBlue ← asStr (← jsonField j "allianceBlue")
  let allianceRed ← asStr (← jsonField j "allianceRed")
  pure ⟨localLabel, tbaLabel, amountOfTeams, matchesPerTeam, totalMatches,
    teamsPerMatch, allianceBlue, allianceRed⟩

/-- The `Personnel` view of a parsed JSON value. -/
def decodePersonnel (j : Json) : Option Personnel := do
  let leadScouters ← decodeStrings (← jsonField j "leadScouters")
  let scouters ← decodeStrings (← jsonField j "scouters")
  let cameras ← decodeStrings (← jsonField j "cameras")
  pure ⟨leadScouters, scouters, cameras⟩

/-- The `Turn` view of a parsed JSON value. -/
def decodeTurn (j : Json) : Option Turn := do
  let turn ← asInt (← jsonField j "turn")
  let startMatch ← asInt (← jsonField j "startMatch")
  let endMatch ← asInt (← jsonField j "endMatch")
  pure ⟨turn, startMatch, endMatch⟩

/-- The `ShiftConfig` view of a parsed JSON value. -/
def decodeShiftConfig (j : Json) : Option ShiftConfig := do
  let breakPoints ← decodeInts (← jsonField j "breakPoints")
  let turnsJson ← asArr (← jsonField j "turns")
  let turns ← decodeList decodeTurn turnsJson
  pure ⟨breakPoints, turns⟩

/-- The nullable-number view of a parsed JSON value. -/
def decodeOptInt : Json → Option (Option Int)
  | .null => some none
  | .num n => some (some n)
  | _ => none

/-- The `MatchAssignment` view of a parsed JSON value. -/
def decodeMatchAssignment (j : Json) : Option MatchAssignment := do
  let position ← asStr (← jsonField j "position")
  let scouter ← asStr (← jsonField j "scouter")
  let teamNumber ← decodeOptInt (← jsonField j "teamNumber")
  pure ⟨position, scouter, teamNumber⟩

/-- The `MatchSchedule` view of a parsed JSON value. -/
def decodeMatchSchedule (j : Json) : Option MatchSchedule := do
  let matchNumber ← asInt (← jsonField j "matchNumber")
  let leadScouter ← asStr (← jsonField j "leadScouter")
  let camera ← asStr (← jsonField j "camera")
  let assignmentsJson ← asArr (← jsonField j "assignments")
  let assignments ← decodeList decodeMatchAssignment assignmentsJson
  pure ⟨matchNumber, leadScouter, camera, assignments⟩

/-- The `GeneratedSchedule` view of a parsed JSON value. -/
def decodeGeneratedSchedule (j : Json) : Option GeneratedSchedule := do
  let event ← decodeEventConfig (← jsonField j "event")
  let personnel ← decodePersonnel (← jsonField j "personnel")
  let shifts ← decodeShiftConfig (← jsonField j "shifts")
  let scheduleJson ← asArr (← jsonField j "schedule")
  let schedule ← decodeList decodeMatchSchedule scheduleJson
  pure ⟨event, personnel, shifts, schedule⟩

/-- Embedding of `parseScheduleJSON` at the JSON-value level: check the four
top-level properties for truthiness, then take the typed view the source's
unchecked cast assumes; `none` models the `null` returns. -/
def parseScheduleJSON (j : Json) : Option GeneratedSchedule :=
  if truthy (jsonField j "event") && truthy (jsonField j "personnel")
      && truthy (jsonField j "shifts") && truthy (jsonField j "schedule") then
    decodeGeneratedSchedule j
  else none

theorem decodeList_map_eq {α : Type} (f : Json → Option α) (g : α → Json)
    (h : ∀ x, f (g x) = some x) : ∀ l : List α, decodeList f (l.map g) = some l := by
  intro l
  induction l with
  | nil => rfl
  | cons x xs ih =>
    rw [List.map_cons, decodeList, h x, ih]
    rfl

theorem decodeEventConfig_roundtrip (e : EventConfig) :
    decodeEventConfig (encodeEventConfig e) = some e := rfl

theorem decodeTurn_roundtrip (t : Turn) : decodeTurn (encodeTurn t) = some t := rfl

theorem decodeMatchAssignment_roundtrip (a : MatchAssignment) :
    decodeMatchAssignment (encodeMatchAssignment a) = some a := by
  cases a with
  | mk p s tn => cases tn <;> rfl

theorem decodePersonnel_roundtrip (p : Personnel) :
    decodePersonnel (encodePersonnel p) = some p := by
  cases p with
  | mk l s c =>
    show Option.bind (decodeList asStr (List.map Json.str l)) _ = _
    rw [decodeList_map_eq asStr Json.str (fun x => rfl) l]
    show Option.bind (decodeList asStr (List.map Json.str s)) _ = _
    rw [decodeList_map_eq asStr Json.str (fun x => rfl) s]
    show Option.bind (decodeList asStr (List.map Json.str c)) _ = _
    rw [decodeList_map_eq asStr Json.str (fun x => rfl) c]
    rfl

theorem decodeShiftConfig_roundtrip (sh : ShiftConfig) :
    decodeShiftConfig (encodeShiftConfig sh) = some sh := by
  cases sh with
  | mk bps ts =>
    show Option.bind (decodeList asInt (List.map Json.num bps)) _ = _
    rw [decodeList_map_eq asInt Json.num (fun x => rfl) bps]
    show Option.bind (decodeList decodeTurn (List.map encodeTurn ts)) _ = _
    rw [decodeList_map_eq decodeTurn encodeTurn decodeTurn_roundtrip ts]
    rfl

theorem decodeMatchSchedule_roundtrip (m : MatchSchedule) :
    decodeMatchSchedule (encodeMatchSchedule m) = some m := by
  cases m with
  | mk mn ls cam asgs =>
    show Option.bind (decodeList decodeMatchAssignment
      (List.map encodeMatchAssignment asgs)) _ = _
    rw [decodeList_map_eq decodeMatchAssignment encodeMatchAssignment
      decodeMatchAssignment_roundtrip asgs]
    rfl

theorem decodeGeneratedSchedule_roundtrip (gs : GeneratedSchedule) :
    decodeGeneratedSchedule (exportFullSchedule gs) = some gs := by
  show Option.bind (Option.bind (decodeList asStr
    (List.map Json.str gs.personnel.leadScouters)) _) _ = _
  rw [decodeList_map_eq asStr Json.str (fun x => rfl) gs.personnel.leadScouters]
  show Option.bind (Option.bind (decodeList asStr
    (List.map Json.str gs.personnel.scouters)) _) _ = _
  rw [decodeList_map_eq asStr Json.str (fun x => rfl) gs.personnel.scouters]
  show Option.bind (Option.bind (decodeList asStr
    (List.map Json.str gs.personnel.cameras)) _) _ = _
  rw [decodeList_map_eq asStr Json.str (fun x => rfl) gs.personnel.cameras]
  show Option.bind (Option.bind (decodeList asInt
    (List.map Json.num gs.shifts.breakPoints)) _) _ = _
  rw [decodeList_map_eq asInt Json.num (fun x => rfl) gs.shifts.breakPoints]
  show Option.bind (Option.bind (decodeList decodeTurn
    (List.map encodeTurn gs.shifts.turns)) _) _ = _
  rw [decodeList_map_eq decodeTurn encodeTurn decodeTurn_roundtrip gs.shifts.turns]
  show Option.bind (decodeList decodeMatchSchedule
    (List.map encodeMatchSchedule gs.schedule)) _ = _
  rw [decodeList_map_eq decodeMatchSchedule encodeMatchSchedule
    decodeMatchSchedule_roundtrip gs.schedule]
  rfl

/-- C8: re-importing the exported JSON shape of any `GeneratedSchedule`
yields a non-null schedule on which every Query Layer function
(`getScouterAssignments`, `getAllScouterNames`, `getScouterStats`,
`getNextScouterForPosition`, `isLastMatchOfTurn`) returns results identical
to those on the original (round-trip fidelity through the JSON shape). -/
theorem parse_export_roundtrip (gs : GeneratedSchedule) :
    ∃ gs', parseScheduleJSON (exportFullSchedule gs) = some gs' ∧
      (∀ name, getScouterAssignments gs' name = getScouterAssignments gs name) ∧
      getAllScouterNames gs' = getAllScouterNames gs ∧
      getScouterStats gs' = getScouterStats gs ∧
      (∀ n pos, getNextScouterForPosition gs' n pos =
        getNextScouterForPosition gs n pos) ∧
      (∀ n name, isLastMatchOfTurn gs' n name = isLastMatchOfTurn gs n name) := by
  refine ⟨gs, ?_, fun _ => rfl, rfl, rfl, fun _ _ => rfl, fun _ _ => rfl⟩
  rw [parseScheduleJSON, if_pos (by rfl)]
  exact decodeGeneratedSchedule_roundtrip gs
